import Mathlib

/-!
Verification development for the notification reconciliation engine of the
commercetools/Adyen integration (module `notification`, file
`src/handler/notification/notification.handler.js`).

The JavaScript handler is shallowly embedded below.  Conventions used in the
embedding:

* JavaScript values that may be `null`/`undefined` are embedded as `Option`;
  a string-valued field that may be absent is `Option String`, and the
  JavaScript truthiness test on such a value (`if (x)`) corresponds to
  `x` being `some s` with `s` nonempty.
* `JSON.stringify` of a notification is modelled by the notification value
  itself: on the record types used here serialization is injective (two
  notifications produce the same JSON text exactly when they are equal, since
  `cloneDeep` preserves key order), so string equality of serialized forms is
  value equality of the records.
* Thrown JavaScript errors are embedded as the `Except`/`.error` branch; the
  structured `HandlerError` type records exactly the data interpolated into
  the corresponding error message in the source.
* The remote commercetools store is an external collaborator; its responses
  are supplied as call-indexed streams in `CtpClient`, and `sleep` is
  modelled by recording the requested delay in milliseconds.
-/

/-- A monetary amount: minor-unit value and currency code
(`NotificationRequestItem.amount` in the source). -/
structure Amount where
  value : Int
  currency : String
deriving DecidableEq, Repr

/-- The `NotificationRequestItem` of an Adyen notification, with the fields
read by `notification.handler.js`.  Absent JSON fields are `none`.  The three
`recurring*` top-level fields are the targets of the hoisting performed by
`getAddInterfaceInteractionUpdateAction`. -/
structure NotificationRequestItem where
  eventCode : Option String
  success : Bool
  merchantReference : Option String
  pspReference : Option String
  originalReference : Option String
  eventDate : Option String
  amount : Amount
  paymentMethod : Option String
  additionalData : Option (List (String × String))
  reason : Option String
  recurringDetailReference : Option String
  recurringProcessingModel : Option String
  recurringShopperReference : Option String
deriving DecidableEq, Repr

/-- A notification as received by the handler: a wrapper object holding one
`NotificationRequestItem`. -/
structure Notification where
  requestItem : NotificationRequestItem
deriving DecidableEq, Repr

/-- A transaction on the payment aggregate (the fields the handler reads,
plus the ones the planner writes). -/
structure Transaction where
  id : String
  transactionType : String
  state : String
  interactionId : Option String
  timestamp : Option String
  amount : Option Amount
deriving DecidableEq, Repr

/-- One interface-interaction entry on the payment.  The source stores the
custom fields under `fields`; they are flattened here.  `notification` holds
the serialized notification (modelled as the notification value, see the
header comment), `none` for entries written by other tools. -/
structure InterfaceInteraction where
  notification : Option Notification
  status : String
  interactionType : String
  createdAt : String
deriving DecidableEq, Repr

/-- The two payment-readiness custom fields consulted by `processNotification`
(`payment.custom.fields.*`). -/
structure CustomFields where
  makePaymentResponse : Option String
  createSessionResponse : Option String
deriving DecidableEq, Repr

/-- A snapshot of the payment aggregate with the fields the handler reads. -/
structure Payment where
  id : String
  key : Option String
  version : Nat
  interfaceInteractions : List InterfaceInteraction
  transactions : List Transaction
  paymentMethodInfo : Option String
  custom : CustomFields
deriving DecidableEq, Repr

/-- One row of `resources/adyen-events.json` (the event mapping table; the
file itself is data shipped next to the handler).  Per the specification the
table is keyed by (event code, success flag) and yields an optional
transaction type/state pair. -/
structure AdyenEvent where
  eventCode : String
  success : Bool
  transactionType : Option String
  transactionState : Option String
deriving DecidableEq, Repr

/-- The configuration and ambient inputs consulted by the handler:
`config.getModuleConfig().removeSensitiveData`, the event table,
`config.getAdyenPaymentMethodsToNames()`, the current time (`new Date()`,
serialized), and UTC date conversion (`Date.parse` + `toISOString`, `none`
when the input cannot be parsed). -/
structure ModuleConfig where
  removeSensitiveData : Bool
  now : String
  toUTC : String → Option String
  adyenEvents : List AdyenEvent
  paymentMethodsToNames : List (String × String)

/-- The update actions produced by the planner
(`calculateUpdateActionsForPayment`).  Field order follows the object
literals in the source; `state` fields are `Option String` because the source
passes the table value through unchecked. -/
inductive UpdateAction where
  | addInterfaceInteraction (createdAt : String) (status : String)
      (interactionType : String) (notification : Notification)
  | addTransaction (timestamp : String) (transactionType : String)
      (state : Option String) (centAmount : Int) (currencyCode : String)
      (interactionId : Option String)
  | changeTransactionState (transactionId : String) (state : Option String)
  | changeTransactionTimestamp (transactionId : String) (timestamp : String)
  | setKey (key : String)
  | setMethodInfoMethod (method : String)
  | setMethodInfoName (name : String)
deriving DecidableEq, Repr

/-- JavaScript truthiness of a possibly-absent string: `undefined`, `null`
and the empty string are falsy. -/
def strTruthy : Option String → Bool
  | none => false
  | some s => !s.isEmpty

/-- The JavaScript `a || b` on possibly-absent strings. -/
def jsOrStr (a b : Option String) : Option String :=
  if strTruthy a then a else b

/-- Property lookup `ad[key]` on the `additionalData` object, embedded as an
association list with the object's key order. -/
def lookupAdditionalData (ad : List (String × String)) (key : String) : Option String :=
  (ad.find? (fun kv => kv.fst == key)).map (fun kv => kv.snd)

/-- JavaScript `toLowerCase`, modelled as lowercasing every character (the
event codes involved are ASCII). -/
def lowerString (s : String) : String :=
  ⟨s.data.map Char.toLower⟩

/-- The lowercased event code computed at the top of
`getAddInterfaceInteractionUpdateAction`:
`_.isNil(eventCode) ? '' : eventCode.toLowerCase()`. -/
def lowercasedEventCode (n : Notification) : String :=
  match n.requestItem.eventCode with
  | none => ""
  | some c => lowerString c

/-- The status stored on the interface interaction: the lowercased event code,
with `_failed` appended when the notification does not report success. -/
def interactionStatus (n : Notification) : String :=
  if n.requestItem.success = false then lowercasedEventCode n ++ "_failed"
  else lowercasedEventCode n

/-- One hoisting step of `getAddInterfaceInteractionUpdateAction`: when
`additionalData` is present and holds a truthy value under `key`, store that
value via `set` on the request item. -/
def hoistField (key : String) (set : NotificationRequestItem → String → NotificationRequestItem)
    (n : Notification) : Notification :=
  match n.requestItem.additionalData with
  | none => n
  | some ad =>
    match lookupAdditionalData ad key with
    | none => n
    | some v => if v.isEmpty then n else { n with requestItem := set n.requestItem v }

/-- The three hoists performed on the success branch of
`getAddInterfaceInteractionUpdateAction`: `recurring.recurringDetailReference`,
`recurringProcessingModel` and `recurring.shopperReference` are copied from
`additionalData` to top-level fields of the request item. -/
def hoistRecurringFields (n : Notification) : Notification :=
  let n1 := hoistField "recurring.recurringDetailReference"
    (fun ri v => { ri with recurringDetailReference := some v }) n
  let n2 := hoistField "recurringProcessingModel"
    (fun ri v => { ri with recurringProcessingModel := some v }) n1
  hoistField "recurring.shopperReference"
    (fun ri v => { ri with recurringShopperReference := some v }) n2

/-- The redaction step: `delete ...additionalData` and `delete ...reason`. -/
def removeSensitiveFields (n : Notification) : Notification :=
  { n with requestItem := { n.requestItem with additionalData := none, reason := none } }

/-- The notification actually serialized into the interface interaction
(`notificationToUse` in the source): unchanged on the failure branch; on the
success branch the recurring fields are hoisted and, when
`removeSensitiveData` is configured, `additionalData` and `reason` are
removed. -/
def interactionPayload (cfg : ModuleConfig) (n : Notification) : Notification :=
  if n.requestItem.success = false then n
  else
    let hoisted := hoistRecurringFields n
    if cfg.removeSensitiveData then removeSensitiveFields hoisted else hoisted

/-- `getAddInterfaceInteractionUpdateAction` from the source. -/
def getAddInterfaceInteractionUpdateAction (cfg : ModuleConfig) (n : Notification) :
    UpdateAction :=
  UpdateAction.addInterfaceInteraction cfg.now (interactionStatus n) "notification"
    (interactionPayload cfg n)

/-- The ordinal table of `compareTransactionStates`, on a possibly-absent
state name (`hasOwnProperty` fails for absent and for unknown names alike). -/
def transactionStateFlow : Option String → Option Int
  | some "Initial" => some 0
  | some "Pending" => some 1
  | some "Success" => some 2
  | some "Failure" => some 3
  | _ => none

/-- `compareTransactionStates` from the source: ordinal difference
`new − current`, an error when either name is outside the enumeration. -/
def compareTransactionStates (currentState newState : Option String) : Except String Int :=
  match transactionStateFlow currentState, transactionStateFlow newState with
  | some c, some n => Except.ok (n - c)
  | _, _ => Except.error "Wrong transaction state passed"

/-- The resolved (transaction type, transaction state) pair; the source
returns the matched table row (or an all-null default) and the caller
destructures exactly these two fields. -/
structure TypeState where
  transactionType : Option String
  transactionState : Option String
deriving DecidableEq, Repr

/-- `getTransactionTypeAndStateOrNull` from the source: look up the event
table by (event code, success); on a `CANCEL_OR_REFUND` match refine the
transaction type from `additionalData['modification.action']`. -/
def getTransactionTypeAndStateOrNull (adyenEvents : List AdyenEvent)
    (nri : NotificationRequestItem) : TypeState :=
  match adyenEvents.find? (fun e =>
      (some e.eventCode == nri.eventCode) && (e.success == nri.success)) with
  | none => ⟨none, none⟩
  | some adyenEvent =>
    if nri.eventCode == some "CANCEL_OR_REFUND" then
      let modificationAction :=
        match nri.additionalData with
        | some ad => lookupAdditionalData ad "modification.action"
        | none => none
      if modificationAction == some "refund" then
        ⟨some "Refund", adyenEvent.transactionState⟩
      else if modificationAction == some "cancel" then
        ⟨some "CancelAuthorization", adyenEvent.transactionState⟩
      else ⟨adyenEvent.transactionType, adyenEvent.transactionState⟩
    else ⟨adyenEvent.transactionType, adyenEvent.transactionState⟩

/-- `convertDateToUTCFormat`: UTC conversion of the event date, falling back
to the current time when the date is absent or unparsable. -/
def convertDateToUTCFormat (cfg : ModuleConfig) (d : Option String) : String :=
  match d with
  | none => cfg.now
  | some s => (cfg.toUTC s).getD cfg.now

/-- `getAddTransactionUpdateAction` from the source. -/
def getAddTransactionUpdateAction (timestamp : String) (transactionType : String)
    (state : Option String) (centAmount : Int) (currencyCode : String)
    (interactionId : Option String) : UpdateAction :=
  UpdateAction.addTransaction timestamp transactionType state centAmount currencyCode
    interactionId

/-- `getChangeTransactionStateUpdateAction` from the source. -/
def getChangeTransactionStateUpdateAction (transactionId : String)
    (newTransactionState : Option String) : UpdateAction :=
  UpdateAction.changeTransactionState transactionId newTransactionState

/-- `getChangeTransactionTimestampUpdateAction` from the source. -/
def getChangeTransactionTimestampUpdateAction (cfg : ModuleConfig)
    (transactionId : String) (transactionEventDate : Option String) : UpdateAction :=
  UpdateAction.changeTransactionTimestamp transactionId
    (convertDateToUTCFormat cfg transactionEventDate)

/-- The interaction dedupe test at the top of
`calculateUpdateActionsForPayment`: is the serialized notification already
stored on some interface interaction? -/
def isNotificationInInterfaceInteraction (p : Payment) (n : Notification) : Bool :=
  p.interfaceInteractions.any (fun interaction => interaction.notification == some n)

/-- The transaction-reconciliation block of `calculateUpdateActionsForPayment`
(executed only when the resolved transaction type is non-null): add a
transaction when none carries the notification's psp reference as interaction
id, otherwise advance its state (and timestamp) when the proposed state
strictly advances the current one. -/
def txActions (cfg : ModuleConfig) (p : Payment) (nri : NotificationRequestItem)
    (transactionType : String) (transactionState : Option String) :
    Except String (List UpdateAction) :=
  match p.transactions.find? (fun t => t.interactionId == nri.pspReference) with
  | none =>
    Except.ok [getAddTransactionUpdateAction (convertDateToUTCFormat cfg nri.eventDate)
      transactionType transactionState nri.amount.value nri.amount.currency
      nri.pspReference]
  | some oldTransaction =>
    match compareTransactionStates (some oldTransaction.state) transactionState with
    | Except.error e => Except.error e
    | Except.ok c =>
      if c > 0 then
        Except.ok [getChangeTransactionStateUpdateAction oldTransaction.id transactionState,
          getChangeTransactionTimestampUpdateAction cfg oldTransaction.id nri.eventDate]
      else Except.ok []

/-- The rekey block of `calculateUpdateActionsForPayment` (also inside the
non-null-transaction-type branch): on a success notification whose preferred
reference (original reference if truthy, else psp reference) is truthy and
differs from the payment key, emit `setKey`. -/
def keyActions (p : Payment) (nri : NotificationRequestItem) : List UpdateAction :=
  if nri.success then
    match jsOrStr nri.originalReference nri.pspReference with
    | none => []
    | some r => if !r.isEmpty && !(some r == p.key) then [UpdateAction.setKey r] else []
  else []

/-- The payment-method block at the end of `calculateUpdateActionsForPayment`:
when the notification carries a (truthy) payment method different from the
payment's recorded one, set it, and also set the localized name when one is
configured. -/
def methodActions (cfg : ModuleConfig) (p : Payment) (nri : NotificationRequestItem) :
    List UpdateAction :=
  match nri.paymentMethod with
  | none => []
  | some m =>
    if !m.isEmpty && !(p.paymentMethodInfo == some m) then
      UpdateAction.setMethodInfoMethod m ::
        (match lookupAdditionalData cfg.paymentMethodsToNames m with
         | some name => [UpdateAction.setMethodInfoName name]
         | none => [])
    else []

/-- `calculateUpdateActionsForPayment` from the source, assembling the blocks
in source order: interaction dedupe, transaction reconciliation, rekey,
payment method.  The `Except.error` branch is the `compareTransactionStates`
throw. -/
def calculateUpdateActionsForPayment (cfg : ModuleConfig) (p : Payment)
    (n : Notification) : Except String (List UpdateAction) :=
  let nri := n.requestItem
  let interactionActions :=
    if isNotificationInInterfaceInteraction p n = false then
      [getAddInterfaceInteractionUpdateAction cfg n]
    else []
  let ts := getTransactionTypeAndStateOrNull cfg.adyenEvents nri
  match ts.transactionType with
  | none => Except.ok (interactionActions ++ methodActions cfg p nri)
  | some transactionType =>
    match txActions cfg p nri transactionType ts.transactionState with
    | Except.error e => Except.error e
    | Except.ok txa =>
      Except.ok (interactionActions ++ txa ++ keyActions p nri ++ methodActions cfg p nri)

/-- The outcome of one `ctpClient.update` call: success, a 409 concurrent
modification carrying the store's current version
(`err.body.errors[0].currentVersion`), or any other HTTP error. -/
inductive UpdateCallResult where
  | success
  | conflict (currentVersion : Nat)
  | otherError (statusCode : Nat)
deriving DecidableEq, Repr

/-- The outcome of one `ctpClient.fetchByKeys` call inside
`getPaymentByMerchantReference`: a body with an optional first result, or a
thrown error with a status code. -/
inductive FetchByKeysResult where
  | ok (payment : Option Payment)
  | err (statusCode : Nat)
deriving DecidableEq, Repr

/-- The store client as consumed by the handler: the result of the i-th
`fetchByKeys`, `update` and `fetchById` call respectively (`fetchById`
yields `response?.body`).  This is the functional contract of the external
commercetools client, instantiated per scenario. -/
structure CtpClient where
  fetchByKeys : Nat → FetchByKeysResult
  update : Nat → UpdateCallResult
  fetchById : Nat → Option Payment

/-- The errors the handler can raise, carrying exactly the data interpolated
into the corresponding message in the source. -/
inductive HandlerError where
  /-- `compareTransactionStates` threw inside the planner. -/
  | planError (message : String)
  /-- Non-409 failure of `ctpClient.update`, wrapped as
  `Unexpected error on payment update with ID ...`. -/
  | unexpectedUpdateError (paymentId : String) (statusCode : Nat)
  /-- The concurrent-modification retry limit was exceeded; the message
  reports the version tried and the store's current version. -/
  | concurrentModificationLimit (paymentId : String) (versionTried : Nat)
      (currentVersion : Nat)
  /-- `throwError`: `Payment <merchantReference> is not created yet.` -/
  | paymentNotCreated (merchantReference : Option String)
  /-- Non-404 failure of `fetchByKeys`, wrapped by
  `getPaymentByMerchantReference`. -/
  | fetchError (statusCode : Nat)
  /-- Artifact of the fuel encoding of the two bounded retry loops; proved
  unreachable for the fuel the handler entry points supply. -/
  | outOfModel
deriving DecidableEq, Repr

/-- The conflict-retry budget of `updatePaymentWithRepeater` (`maxRetry`). -/
def maxUpdateRetry : Nat := 20

/-- The body of `updatePaymentWithRepeater`'s recursive `repeater`, with the
store-call indices (`uIdx` for `update`, `fIdx` for `fetchById`) threaded
explicitly and returned alongside the result.  The fuel argument only bounds
the recursion; `updatePaymentWithRepeater` supplies enough fuel that the
`outOfModel` branch is unreachable (the retry count strictly increases and is
bounded by `maxUpdateRetry`). -/
def repeaterAux (cfg : ModuleConfig) (notification : Notification) (client : CtpClient) :
    Nat → Payment → Nat → Nat → Nat → Nat → Except HandlerError Unit × Nat × Nat
  | 0, _, _, _, uIdx, fIdx => (Except.error HandlerError.outOfModel, uIdx, fIdx)
  | fuel + 1, currentPayment, currentVersion, retryCount, uIdx, fIdx =>
    match calculateUpdateActionsForPayment cfg currentPayment notification with
    | Except.error e => (Except.error (HandlerError.planError e), uIdx, fIdx)
    | Except.ok updateActions =>
      if updateActions.length = 0 then (Except.ok (), uIdx, fIdx)
      else
        match client.update uIdx with
        | UpdateCallResult.success => (Except.ok (), uIdx + 1, fIdx)
        | UpdateCallResult.otherError statusCode =>
          (Except.error (HandlerError.unexpectedUpdateError currentPayment.id statusCode),
            uIdx + 1, fIdx)
        | UpdateCallResult.conflict storeCurrentVersion =>
          let retryCount' := retryCount + 1
          if retryCount' > maxUpdateRetry then
            (Except.error (HandlerError.concurrentModificationLimit currentPayment.id
              currentVersion storeCurrentVersion), uIdx + 1, fIdx)
          else
            match client.fetchById fIdx with
            | some body =>
              repeaterAux cfg notification client fuel body body.version retryCount'
                (uIdx + 1) (fIdx + 1)
            | none =>
              repeaterAux cfg notification client fuel currentPayment currentVersion
                retryCount' (uIdx + 1) (fIdx + 1)

/-- `updatePaymentWithRepeater` from the source: plan against the current
snapshot, succeed without a store call on an empty plan, submit at the held
version otherwise, and on a 409 refetch-and-retry up to `maxUpdateRetry`
times. -/
def updatePaymentWithRepeater (cfg : ModuleConfig) (notification : Notification)
    (client : CtpClient) (payment : Payment) (uIdx fIdx : Nat) :
    Except HandlerError Unit × Nat × Nat :=
  repeaterAux cfg notification client (maxUpdateRetry + 1) payment payment.version 0
    uIdx fIdx

/-- `getPaymentByMerchantReference` from the source: a 404 from the store is
`none` (not found); any other failure is wrapped and rethrown. -/
def getPaymentByMerchantReference (r : FetchByKeysResult) :
    Except HandlerError (Option Payment) :=
  match r with
  | FetchByKeysResult.ok payment => Except.ok payment
  | FetchByKeysResult.err statusCode =>
    if statusCode = 404 then Except.ok none
    else Except.error (HandlerError.fetchError statusCode)

/-- The payment-readiness test of `processNotification`:
`payment.custom.fields.makePaymentResponse || payment.custom.fields.createSessionResponse`. -/
def paymentReady (p : Payment) : Bool :=
  strTruthy p.custom.makePaymentResponse || strTruthy p.custom.createSessionResponse

/-- The resolution retry budget of `processNotification` (`maxRetry`). -/
def maxResolveRetry : Nat := 7

/-- Decidable equality of `Except` results, needed to evaluate concrete
engine traces. -/
instance {ε : Type} {α : Type} [DecidableEq ε] [DecidableEq α] :
    DecidableEq (Except ε α) := fun a b =>
  match a, b with
  | Except.ok x, Except.ok y =>
    if h : x = y then isTrue (by rw [h])
    else isFalse (by intro hc; cases hc; exact h rfl)
  | Except.error x, Except.error y =>
    if h : x = y then isTrue (by rw [h])
    else isFalse (by intro hc; cases hc; exact h rfl)
  | Except.ok _, Except.error _ => isFalse (by intro hc; cases hc)
  | Except.error _, Except.ok _ => isFalse (by intro hc; cases hc)

/-- The observable outcome of one `processNotification` call: the result
(`Except.error` meaning the promise rejected, i.e. an error escaped the
handler), the number of `fetchByKeys`/`update`/`fetchById` store calls made,
and the list of `sleep` delays (in milliseconds) awaited between resolution
attempts. -/
structure EngineTrace where
  result : Except HandlerError Unit
  fetchByKeysCalls : Nat
  updateCalls : Nat
  fetchByIdCalls : Nat
  delays : List Nat
deriving DecidableEq, Repr

/-- The body of `processNotification`'s recursive `handleWebhook`.  The
initial aggregate fetch happens before the `try` block, so its errors
propagate; inside the `catch`, when the retry condition fails and a payment
was found, `updatePaymentWithRepeater` is invoked again (best-effort
recording) and any error it raises also propagates.  Fuel only bounds the
recursion and is sufficient at the entry point (`outOfModel` unreachable). -/
def handleWebhookAux (cfg : ModuleConfig) (notification : Notification)
    (client : CtpClient) (merchantReference : Option String) :
    Nat → Nat → Nat → Nat → Nat → List Nat → EngineTrace
  | 0, kIdx, uIdx, fIdx, _, delays =>
    ⟨Except.error HandlerError.outOfModel, kIdx, uIdx, fIdx, delays⟩
  | fuel + 1, kIdx, uIdx, fIdx, retryCount, delays =>
    match getPaymentByMerchantReference (client.fetchByKeys kIdx) with
    | Except.error e => ⟨Except.error e, kIdx + 1, uIdx, fIdx, delays⟩
    | Except.ok payment =>
      let tryResult : Except HandlerError Unit × Nat × Nat :=
        match payment with
        | none => (Except.error (HandlerError.paymentNotCreated merchantReference), uIdx, fIdx)
        | some p =>
          if paymentReady p then updatePaymentWithRepeater cfg notification client p uIdx fIdx
          else (Except.error (HandlerError.paymentNotCreated merchantReference), uIdx, fIdx)
      match tryResult with
      | (Except.ok _, uIdx1, fIdx1) => ⟨Except.ok (), kIdx + 1, uIdx1, fIdx1, delays⟩
      | (Except.error _, uIdx1, fIdx1) =>
        let retryCount' := retryCount + 1
        if retryCount' < maxResolveRetry ∧
            notification.requestItem.eventCode = some "AUTHORISATION" then
          handleWebhookAux cfg notification client merchantReference fuel (kIdx + 1)
            uIdx1 fIdx1 retryCount' (delays ++ [1000])
        else
          match payment with
          | some p =>
            match updatePaymentWithRepeater cfg notification client p uIdx1 fIdx1 with
            | (Except.ok _, uIdx2, fIdx2) => ⟨Except.ok (), kIdx + 1, uIdx2, fIdx2, delays⟩
            | (Except.error e2, uIdx2, fIdx2) =>
              ⟨Except.error e2, kIdx + 1, uIdx2, fIdx2, delays⟩
          | none => ⟨Except.ok (), kIdx + 1, uIdx1, fIdx1, delays⟩

/-- `processNotification` from the source.  HMAC validation is an external
collaborator (`validateHmacSignature` lives in `utils/`); per the spec its
contract is an optional error message, supplied here as `hmacError`.  When
validation is enabled and fails, the notification is dropped without any
store access. -/
def processNotification (cfg : ModuleConfig) (notification : Notification)
    (enableHmacSignature : Bool) (hmacError : Option String) (client : CtpClient) :
    EngineTrace :=
  if enableHmacSignature && hmacError.isSome then
    ⟨Except.ok (), 0, 0, 0, []⟩
  else
    handleWebhookAux cfg notification client notification.requestItem.merchantReference
      maxResolveRetry 0 0 0 0 []

/-- Modelled from the spec: the aggregate store's application of one update
action to a payment snapshot (the store itself is external to this
repository; §3 and §6 of the spec give its functional contract).  `freshId`
is the store-assigned id for a new transaction; a transaction added without a
state receives the store default `Initial`; `setMethodInfoName` touches only
the localized name, which the planner never reads. -/
def applyUpdateAction (freshId : String) (p : Payment) : UpdateAction → Payment
  | UpdateAction.addInterfaceInteraction createdAt status interactionType notif =>
    { p with interfaceInteractions :=
        p.interfaceInteractions ++ [⟨some notif, status, interactionType, createdAt⟩] }
  | UpdateAction.addTransaction timestamp transactionType state centAmount currencyCode
      interactionId =>
    { p with transactions := p.transactions ++
        [⟨freshId, transactionType, state.getD "Initial", interactionId, some timestamp,
          some ⟨centAmount, currencyCode⟩⟩] }
  | UpdateAction.changeTransactionState transactionId state =>
    { p with transactions := p.transactions.map (fun t =>
        if t.id = transactionId then { t with state := state.getD t.state } else t) }
  | UpdateAction.changeTransactionTimestamp transactionId timestamp =>
    { p with transactions := p.transactions.map (fun t =>
        if t.id = transactionId then { t with timestamp := some timestamp } else t) }
  | UpdateAction.setKey key => { p with key := some key }
  | UpdateAction.setMethodInfoMethod method => { p with paymentMethodInfo := some method }
  | UpdateAction.setMethodInfoName _ => p

/-- Modelled from the spec: application of a list of update actions in order,
with store-assigned transaction ids drawn from `freshIds` by action index. -/
def applyUpdateActionsFrom (freshIds : Nat → String) :
    Nat → Payment → List UpdateAction → Payment
  | _, p, [] => p
  | i, p, a :: rest =>
    applyUpdateActionsFrom freshIds (i + 1) (applyUpdateAction (freshIds i) p a) rest

/-- Modelled from the spec: the aggregate resulting from applying a plan. -/
def applyUpdateActions (freshIds : Nat → String) (p : Payment)
    (acts : List UpdateAction) : Payment :=
  applyUpdateActionsFrom freshIds 0 p acts

/-- The status stored by an `addInterfaceInteraction` action, `none` for any
other action. -/
def actionStatus : UpdateAction → Option String
  | UpdateAction.addInterfaceInteraction _ status _ _ => some status
  | _ => none

/-- The serialized notification stored by an `addInterfaceInteraction`
action, `none` for any other action. -/
def actionStoredNotification : UpdateAction → Option Notification
  | UpdateAction.addInterfaceInteraction _ _ _ notif => some notif
  | _ => none

/-- Is this action a `setKey`? -/
def isSetKeyAction : UpdateAction → Bool
  | UpdateAction.setKey _ => true
  | _ => false

/-- Is this action a `changeTransactionState` or
`changeTransactionTimestamp`? -/
def isChangeTxAction : UpdateAction → Bool
  | UpdateAction.changeTransactionState _ _ => true
  | UpdateAction.changeTransactionTimestamp _ _ => true
  | _ => false

/-- An `addInterfaceInteraction` action with the stored notification replaced
by a fixed placeholder; used to compare plans up to the stored payload. -/
def scrubStoredNotification : UpdateAction → UpdateAction
  | UpdateAction.addInterfaceInteraction createdAt status interactionType _ =>
    UpdateAction.addInterfaceInteraction createdAt status interactionType
      ⟨⟨none, false, none, none, none, none, ⟨0, ""⟩, none, none, none, none, none, none⟩⟩
  | a => a

/-- A request item with every optional field absent (scenario baseline). -/
def baseRequestItem : NotificationRequestItem :=
  ⟨none, false, none, none, none, none, ⟨0, "EUR"⟩, none, none, none, none, none, none⟩

/-- An empty payment snapshot (scenario baseline). -/
def basePayment : Payment :=
  ⟨"pay-1", none, 1, [], [], none, ⟨none, none⟩⟩

/-- A baseline configuration: redaction off, empty event table, no localized
names, dates unparsable. -/
def baseConfig : ModuleConfig :=
  ⟨false, "NOW", fun _ => none, [], []⟩

/-- Store-assigned transaction ids for `applyUpdateActions` in scenarios. -/
def txIds : Nat → String := fun i => "tx-" ++ toString i

/-- The mapping-table row for a successful AUTHORISATION. -/
def authorisationEvent : AdyenEvent :=
  ⟨"AUTHORISATION", true, some "Authorization", some "Success"⟩

/-- Scenario notification for the duplicate-delivery claims: a successful
AUTHORISATION carrying additional data. -/
def notifWithAdditionalData : Notification :=
  ⟨{ baseRequestItem with
      eventCode := some "AUTHORISATION"
      success := true
      pspReference := some "P1"
      additionalData := some [("cardSummary", "1111")] }⟩

/-- Scenario payment keyed `M1` with no interactions or transactions. -/
def paymentM1 : Payment := { basePayment with key := some "M1" }

/-- Configuration with redaction on and an empty event table. -/
def redactingConfig : ModuleConfig := { baseConfig with removeSensitiveData := true }

/-- The first plan of the duplicate-delivery counterexample scenario: one
interface interaction storing the redacted notification. -/
def redactedFirstPlan : List UpdateAction :=
  [UpdateAction.addInterfaceInteraction "NOW" "authorisation" "notification"
    ⟨{ baseRequestItem with
        eventCode := some "AUTHORISATION"
        success := true
        pspReference := some "P1" }⟩]

/-- Scenario notification for the conflict-retry claim: a failed CAPTURE,
whose plan always contains the interface interaction and is thus nonempty. -/
def captureFailedNotif : Notification :=
  ⟨{ baseRequestItem with eventCode := some "CAPTURE", success := false }⟩

/-- A store that reports a concurrent-modification conflict on the first 19
update calls and succeeds on the 20th; refetch returns fresh versions. -/
def conflictClient19 : CtpClient :=
  ⟨fun _ => FetchByKeysResult.ok none,
   fun i => if i < 19 then UpdateCallResult.conflict (100 + i) else UpdateCallResult.success,
   fun i => some { basePayment with version := i + 2 }⟩

/-- A store that reports a concurrent-modification conflict on every update
call; refetch returns fresh versions. -/
def conflictClient21 : CtpClient :=
  ⟨fun _ => FetchByKeysResult.ok none,
   fun i => UpdateCallResult.conflict (100 + i),
   fun i => some { basePayment with version := i + 2 }⟩

/-- Scenario notification for the resolution-retry claim: a successful
AUTHORISATION. -/
def authorisationNotif : Notification :=
  ⟨{ baseRequestItem with eventCode := some "AUTHORISATION", success := true }⟩

/-- A payment-ready aggregate that already records `authorisationNotif`, so
the plan against it is empty. -/
def readyPaymentWithInteraction : Payment :=
  { basePayment with
      custom := ⟨some "makePaymentResponse", none⟩
      interfaceInteractions := [⟨some authorisationNotif, "x", "notification", "T"⟩] }

/-- A resolver that finds nothing on the first six calls and the payment-ready
aggregate on the seventh. -/
def lateResolveClient : CtpClient :=
  ⟨fun i => if i < 6 then FetchByKeysResult.ok none
            else FetchByKeysResult.ok (some readyPaymentWithInteraction),
   fun _ => UpdateCallResult.success,
   fun _ => none⟩

/-- A store whose key lookup fails with a non-404 error. -/
def failingFetchClient : CtpClient :=
  ⟨fun _ => FetchByKeysResult.err 500,
   fun _ => UpdateCallResult.success,
   fun _ => none⟩

/-- Scenario notification for the rekey claim: success with an empty-string
psp reference. -/
def emptyPspNotif : Notification :=
  ⟨{ baseRequestItem with
      eventCode := some "AUTHORISATION"
      success := true
      pspReference := some "" }⟩

/-- Configuration whose event table contains the AUTHORISATION row. -/
def authEventConfig : ModuleConfig := { baseConfig with adyenEvents := [authorisationEvent] }

/-- The interface-interaction entry an action appends, if any. -/
def interactionEntry : UpdateAction → Option InterfaceInteraction
  | UpdateAction.addInterfaceInteraction createdAt status interactionType notif =>
    some ⟨some notif, status, interactionType, createdAt⟩
  | _ => none

/-- Evolution of the payment key under one action. -/
def keyStep (k : Option String) : UpdateAction → Option String
  | UpdateAction.setKey r => some r
  | _ => k

/-- Evolution of the recorded payment method under one action. -/
def methodStep (m : Option String) : UpdateAction → Option String
  | UpdateAction.setMethodInfoMethod r => some r
  | _ => m

/-- Does the action touch the transaction list? -/
def isTxAction : UpdateAction → Bool
  | UpdateAction.addTransaction _ _ _ _ _ _ => true
  | UpdateAction.changeTransactionState _ _ => true
  | UpdateAction.changeTransactionTimestamp _ _ => true
  | _ => false

/-- Evolution of the transaction list under one action (with the
store-assigned id for an added transaction). -/
def txStep (newId : String) (l : List Transaction) : UpdateAction → List Transaction
  | UpdateAction.addTransaction timestamp transactionType state centAmount currencyCode
      interactionId =>
    l ++ [⟨newId, transactionType, state.getD "Initial", interactionId, some timestamp,
      some ⟨centAmount, currencyCode⟩⟩]
  | UpdateAction.changeTransactionState transactionId state =>
    l.map (fun t => if t.id = transactionId then { t with state := state.getD t.state } else t)
  | UpdateAction.changeTransactionTimestamp transactionId timestamp =>
    l.map (fun t => if t.id = transactionId then { t with timestamp := some timestamp } else t)
  | _ => l

/-- Evolution of the transaction list under a list of actions. -/
def txFoldFrom (freshIds : Nat → String) : Nat → List UpdateAction → List Transaction →
    List Transaction
  | _, [], l => l
  | i, a :: rest, l => txFoldFrom freshIds (i + 1) rest (txStep (freshIds i) l a)

/-- The plan produced in the idempotence witness scenario: record the
interaction, add the authorization transaction, rekey to the psp
reference. -/
def idempotentScenarioPlan : List UpdateAction :=
  [UpdateAction.addInterfaceInteraction "NOW" "authorisation" "notification"
      notifWithAdditionalData,
   UpdateAction.addTransaction "NOW" "Authorization" (some "Success") 0 "EUR" (some "P1"),
   UpdateAction.setKey "P1"]

/-- A successful AUTHORISATION notification with psp reference `P1`. -/
def rekeyNotif : Notification :=
  ⟨{ baseRequestItem with
      eventCode := some "AUTHORISATION"
      success := true
      pspReference := some "P1" }⟩

/-- A mapping-table row for CANCEL_OR_REFUND whose default type is the
table-level one (refined by the planner from additional data). -/
def cancelOrRefundEvent : AdyenEvent :=
  ⟨"CANCEL_OR_REFUND", true, some "CancelAuthorization", some "Success"⟩

/-- A CANCEL_OR_REFUND notification whose additional data requests a
refund. -/
def corRefundNotif : Notification :=
  ⟨{ baseRequestItem with
      eventCode := some "CANCEL_OR_REFUND"
      success := true
      additionalData := some [("modification.action", "refund")] }⟩

/-- A failed AUTHORISATION notification carrying additional data and a
failure reason. -/
def failedNotifWithData : Notification :=
  ⟨{ baseRequestItem with
      eventCode := some "AUTHORISATION"
      success := false
      additionalData := some [("cardSummary", "1111")]
      reason := some "card declined" }⟩

/-- A payment already keyed `P1` holding a pending authorization transaction
created by psp reference `P1`. -/
def pendingAuthPayment : Payment :=
  { basePayment with
      key := some "P1"
      transactions := [⟨"t1", "Authorization", "Pending", some "P1", none, none⟩] }

/-- The plan the planner produces for `rekeyNotif` against `paymentM1`. -/
def rekeyScenarioPlan : List UpdateAction :=
  [UpdateAction.addInterfaceInteraction "NOW" "authorisation" "notification" rekeyNotif,
   UpdateAction.addTransaction "NOW" "Authorization" (some "Success") 0 "EUR" (some "P1"),
   UpdateAction.setKey "P1"]

/-- The plan the planner produces for `rekeyNotif` against
`pendingAuthPayment`: record the interaction and advance the pending
transaction. -/
def pendingAdvancePlan : List UpdateAction :=
  [UpdateAction.addInterfaceInteraction "NOW" "authorisation" "notification" rekeyNotif,
   UpdateAction.changeTransactionState "t1" (some "Success"),
   UpdateAction.changeTransactionTimestamp "t1" "NOW"]

/-! ### Evolution of the aggregate fields under a plan -/

theorem applyFrom_interfaceInteractions (freshIds : Nat → String)
    (acts : List UpdateAction) : ∀ (i : Nat) (p : Payment),
    (applyUpdateActionsFrom freshIds i p acts).interfaceInteractions =
      p.interfaceInteractions ++ acts.filterMap interactionEntry := by
  induction acts with
  | nil => intro i p; simp [applyUpdateActionsFrom]
  | cons a rest ih =>
    intro i p
    cases a <;> simp [applyUpdateActionsFrom, applyUpdateAction, interactionEntry, ih]

theorem applyFrom_key (freshIds : Nat → String) (acts : List UpdateAction) :
    ∀ (i : Nat) (p : Payment),
    (applyUpdateActionsFrom freshIds i p acts).key = acts.foldl keyStep p.key := by
  induction acts with
  | nil => intro i p; simp [applyUpdateActionsFrom]
  | cons a rest ih =>
    intro i p
    cases a <;> simp [applyUpdateActionsFrom, applyUpdateAction, keyStep, ih]

theorem applyFrom_paymentMethodInfo (freshIds : Nat → String) (acts : List UpdateAction) :
    ∀ (i : Nat) (p : Payment),
    (applyUpdateActionsFrom freshIds i p acts).paymentMethodInfo =
      acts.foldl methodStep p.paymentMethodInfo := by
  induction acts with
  | nil => intro i p; simp [applyUpdateActionsFrom]
  | cons a rest ih =>
    intro i p
    cases a <;> simp [applyUpdateActionsFrom, applyUpdateAction, methodStep, ih]

theorem applyFrom_transactions (freshIds : Nat → String) (acts : List UpdateAction) :
    ∀ (i : Nat) (p : Payment),
    (applyUpdateActionsFrom freshIds i p acts).transactions =
      txFoldFrom freshIds i acts p.transactions := by
  induction acts with
  | nil => intro i p; simp [applyUpdateActionsFrom, txFoldFrom]
  | cons a rest ih =>
    intro i p
    cases a <;> simp [applyUpdateActionsFrom, applyUpdateAction, txFoldFrom, txStep, ih]

theorem foldl_keyStep_of_no_setKey (acts : List UpdateAction)
    (h : ∀ a ∈ acts, ∀ r, a ≠ UpdateAction.setKey r) :
    ∀ k, acts.foldl keyStep k = k := by
  induction acts with
  | nil => intro k; simp
  | cons a rest ih =>
    intro k
    have ha := h a (by simp)
    have hrest : ∀ a' ∈ rest, ∀ r, a' ≠ UpdateAction.setKey r := by
      intro a' ha' r
      exact h a' (by simp [ha']) r
    cases a <;> simp_all [keyStep, ih hrest]

theorem foldl_methodStep_of_no_setMethod (acts : List UpdateAction)
    (h : ∀ a ∈ acts, ∀ r, a ≠ UpdateAction.setMethodInfoMethod r) :
    ∀ m, acts.foldl methodStep m = m := by
  induction acts with
  | nil => intro m; simp
  | cons a rest ih =>
    intro m
    have ha := h a (by simp)
    have hrest : ∀ a' ∈ rest, ∀ r, a' ≠ UpdateAction.setMethodInfoMethod r := by
      intro a' ha' r
      exact h a' (by simp [ha']) r
    cases a <;> simp_all [methodStep, ih hrest]

theorem txFoldFrom_of_no_txAction (freshIds : Nat → String) (acts : List UpdateAction)
    (h : ∀ a ∈ acts, isTxAction a = false) :
    ∀ (i : Nat) (l : List Transaction), txFoldFrom freshIds i acts l = l := by
  induction acts with
  | nil => intro i l; simp [txFoldFrom]
  | cons a rest ih =>
    intro i l
    have ha := h a (by simp)
    have hrest : ∀ a' ∈ rest, isTxAction a' = false := by
      intro a' ha'
      exact h a' (by simp [ha'])
    cases a <;> simp_all [txFoldFrom, txStep, isTxAction, ih hrest]

theorem txFoldFrom_append (freshIds : Nat → String) (l1 l2 : List UpdateAction) :
    ∀ (i : Nat) (l : List Transaction),
    txFoldFrom freshIds i (l1 ++ l2) l =
      txFoldFrom freshIds (i + l1.length) l2 (txFoldFrom freshIds i l1 l) := by
  induction l1 with
  | nil => intro i l; simp [txFoldFrom]
  | cons a rest ih =>
    intro i l
    have harith : i + 1 + rest.length = i + (rest.length + 1) := by omega
    simp [txFoldFrom, ih, harith]

theorem foldl_keyStep_append (l1 l2 : List UpdateAction) (k : Option String) :
    (l1 ++ l2).foldl keyStep k = l2.foldl keyStep (l1.foldl keyStep k) := by
  simp [List.foldl_append]

theorem foldl_methodStep_append (l1 l2 : List UpdateAction) (m : Option String) :
    (l1 ++ l2).foldl methodStep m = l2.foldl methodStep (l1.foldl methodStep m) := by
  simp [List.foldl_append]

/-! ### Shapes of the planner blocks -/

theorem txActions_shape (cfg : ModuleConfig) (p : Payment) (nri : NotificationRequestItem)
    (ty : String) (st : Option String) (txa : List UpdateAction)
    (h : txActions cfg p nri ty st = Except.ok txa) :
    (p.transactions.find? (fun t => t.interactionId == nri.pspReference) = none ∧
      txa = [getAddTransactionUpdateAction (convertDateToUTCFormat cfg nri.eventDate) ty st
        nri.amount.value nri.amount.currency nri.pspReference]) ∨
    (∃ oldT c,
      p.transactions.find? (fun t => t.interactionId == nri.pspReference) = some oldT ∧
      compareTransactionStates (some oldT.state) st = Except.ok c ∧
      ((c > 0 ∧ txa = [getChangeTransactionStateUpdateAction oldT.id st,
          getChangeTransactionTimestampUpdateAction cfg oldT.id nri.eventDate]) ∨
       (¬ c > 0 ∧ txa = []))) := by
  cases hf : p.transactions.find? (fun t => t.interactionId == nri.pspReference) with
  | none =>
    simp only [txActions, hf] at h
    left
    exact ⟨rfl, by cases h; rfl⟩
  | some oldT =>
    simp only [txActions, hf] at h
    cases hc : compareTransactionStates (some oldT.state) st with
    | error e => simp only [hc] at h; cases h
    | ok c =>
      simp only [hc] at h
      right
      refine ⟨oldT, c, rfl, hc, ?_⟩
      by_cases hgt : c > 0
      · left
        rw [if_pos hgt] at h
        exact ⟨hgt, by cases h; rfl⟩
      · right
        rw [if_neg hgt] at h
        exact ⟨hgt, by cases h; rfl⟩

theorem keyActions_mem (p : Payment) (nri : NotificationRequestItem) :
    ∀ a ∈ keyActions p nri, ∃ r, a = UpdateAction.setKey r := by
  intro a ha
  by_cases hs : nri.success
  · simp only [keyActions, if_pos hs] at ha
    cases hj : jsOrStr nri.originalReference nri.pspReference with
    | none => simp only [hj] at ha; cases ha
    | some r =>
      simp only [hj] at ha
      by_cases hg : (!r.isEmpty && !(some r == p.key)) = true
      · simp only [if_pos hg] at ha
        simp at ha
        exact ⟨r, ha⟩
      · simp only [if_neg hg] at ha
        cases ha
  · simp only [keyActions, if_neg hs] at ha
    cases ha

theorem methodActions_mem (cfg : ModuleConfig) (p : Payment)
    (nri : NotificationRequestItem) :
    ∀ a ∈ methodActions cfg p nri,
      (∃ m, a = UpdateAction.setMethodInfoMethod m) ∨
      (∃ nm, a = UpdateAction.setMethodInfoName nm) := by
  intro a ha
  cases hm : nri.paymentMethod with
  | none => simp only [methodActions, hm] at ha; cases ha
  | some m =>
    simp only [methodActions, hm] at ha
    by_cases hg : (!m.isEmpty && !(p.paymentMethodInfo == some m)) = true
    · simp only [if_pos hg] at ha
      cases hl : lookupAdditionalData cfg.paymentMethodsToNames m with
      | none =>
        simp only [hl] at ha
        simp at ha
        exact Or.inl ⟨m, ha⟩
      | some nm =>
        simp only [hl] at ha
        simp at ha
        rcases ha with ha | ha
        · exact Or.inl ⟨m, ha⟩
        · exact Or.inr ⟨nm, ha⟩
    · simp only [if_neg hg] at ha
      cases ha

theorem txActions_mem_isTx (cfg : ModuleConfig) (p : Payment)
    (nri : NotificationRequestItem) (ty : String) (st : Option String)
    (txa : List UpdateAction) (h : txActions cfg p nri ty st = Except.ok txa) :
    ∀ a ∈ txa, isTxAction a = true := by
  intro a ha
  rcases txActions_shape cfg p nri ty st txa h with ⟨_, rfl⟩ | ⟨oldT, c, _, _, hcase⟩
  · simp [getAddTransactionUpdateAction] at ha
    simp [ha, isTxAction]
  · rcases hcase with ⟨_, rfl⟩ | ⟨_, rfl⟩
    · simp [getChangeTransactionStateUpdateAction,
        getChangeTransactionTimestampUpdateAction] at ha
      rcases ha with ha | ha <;> simp [ha, isTxAction]
    · cases ha

theorem isTxAction_ne_setKey (a : UpdateAction) (h : isTxAction a = true) :
    ∀ r, a ≠ UpdateAction.setKey r := by
  cases a <;> simp_all [isTxAction]

theorem isTxAction_ne_setMethod (a : UpdateAction) (h : isTxAction a = true) :
    ∀ r, a ≠ UpdateAction.setMethodInfoMethod r := by
  cases a <;> simp_all [isTxAction]

theorem calc_ok_decomp (cfg : ModuleConfig) (p : Payment) (n : Notification)
    (acts : List UpdateAction)
    (h : calculateUpdateActionsForPayment cfg p n = Except.ok acts) :
    ∃ txa ka,
      acts = (if isNotificationInInterfaceInteraction p n = false
              then [getAddInterfaceInteractionUpdateAction cfg n] else [])
        ++ txa ++ ka ++ methodActions cfg p n.requestItem ∧
      (((getTransactionTypeAndStateOrNull cfg.adyenEvents n.requestItem).transactionType =
          none ∧ txa = [] ∧ ka = []) ∨
       (∃ ty,
         (getTransactionTypeAndStateOrNull cfg.adyenEvents n.requestItem).transactionType =
           some ty ∧
         txActions cfg p n.requestItem ty
           (getTransactionTypeAndStateOrNull cfg.adyenEvents n.requestItem).transactionState =
             Except.ok txa ∧
         ka = keyActions p n.requestItem)) := by
  simp only [calculateUpdateActionsForPayment] at h
  cases hts : (getTransactionTypeAndStateOrNull cfg.adyenEvents n.requestItem).transactionType with
  | none =>
    simp only [hts] at h
    refine ⟨[], [], ?_, Or.inl ⟨rfl, rfl, rfl⟩⟩
    cases h
    simp
  | some ty =>
    simp only [hts] at h
    cases htx : txActions cfg p n.requestItem ty
        (getTransactionTypeAndStateOrNull cfg.adyenEvents n.requestItem).transactionState with
    | error e => simp only [htx] at h; cases h
    | ok txa =>
      simp only [htx] at h
      refine ⟨txa, keyActions p n.requestItem, ?_, Or.inr ⟨ty, rfl, htx, rfl⟩⟩
      cases h
      rfl

/-! ### Re-planning against the applied aggregate -/

theorem isIn_append_of_entry (p p' : Payment) (n : Notification)
    (extra : List InterfaceInteraction)
    (hii : p'.interfaceInteractions = p.interfaceInteractions ++ extra)
    (h : isNotificationInInterfaceInteraction p n = true ∨
      ∃ e ∈ extra, e.notification = some n) :
    isNotificationInInterfaceInteraction p' n = true := by
  unfold isNotificationInInterfaceInteraction at *
  rw [hii, List.any_append]
  rcases h with h | ⟨e, he, hen⟩
  · simp [h]
  · have hx : extra.any (fun i => i.notification == some n) = true := by
      rw [List.any_eq_true]
      exact ⟨e, he, by simp [hen]⟩
    simp [hx]

theorem keyActions_idem (p p' : Payment) (nri : NotificationRequestItem)
    (hk : p'.key = (keyActions p nri).foldl keyStep p.key) :
    keyActions p' nri = [] := by
  by_cases hs : nri.success
  · cases hj : jsOrStr nri.originalReference nri.pspReference with
    | none => simp [keyActions, hs, hj]
    | some r =>
      by_cases he : r.isEmpty
      · simp [keyActions, hs, hj, he]
      · by_cases hq : (some r == p.key) = true
        · have hka : keyActions p nri = [] := by simp [keyActions, hs, hj, he, hq]
          rw [hka] at hk
          simp at hk
          simp [keyActions, hs, hj, he, hk, hq]
        · have hka : keyActions p nri = [UpdateAction.setKey r] := by
            simp [keyActions, hs, hj, he, hq]
          rw [hka] at hk
          simp [keyStep] at hk
          simp [keyActions, hs, hj, he, hk]
  · simp [keyActions, hs]

theorem methodActions_idem (cfg : ModuleConfig) (p p' : Payment)
    (nri : NotificationRequestItem)
    (hm : p'.paymentMethodInfo =
      (methodActions cfg p nri).foldl methodStep p.paymentMethodInfo) :
    methodActions cfg p' nri = [] := by
  cases hpm : nri.paymentMethod with
  | none => simp [methodActions, hpm]
  | some m =>
    by_cases he : m.isEmpty
    · simp [methodActions, hpm, he]
    · by_cases hq : (p.paymentMethodInfo == some m) = true
      · have hma : methodActions cfg p nri = [] := by simp [methodActions, hpm, he, hq]
        rw [hma] at hm
        simp at hm
        simp [methodActions, hpm, he, hm, hq]
      · have hma : methodActions cfg p nri = UpdateAction.setMethodInfoMethod m ::
            (match lookupAdditionalData cfg.paymentMethodsToNames m with
             | some name => [UpdateAction.setMethodInfoName name]
             | none => []) := by
          simp [methodActions, hpm, he, hq]
        rw [hma] at hm
        cases hl : lookupAdditionalData cfg.paymentMethodsToNames m with
        | none =>
          rw [hl] at hm
          simp [methodStep] at hm
          simp [methodActions, hpm, he, hm]
        | some nm =>
          rw [hl] at hm
          simp [methodStep] at hm
          simp [methodActions, hpm, he, hm]

theorem txActions_after_add (cfg : ModuleConfig) (nri : NotificationRequestItem)
    (ty : String) (st : Option String) (p p' : Payment)
    (hst : (transactionStateFlow st).isSome = true)
    (hfind : p.transactions.find? (fun t => t.interactionId == nri.pspReference) = none)
    (htr : ∃ tid tsp am, p'.transactions =
      p.transactions ++ [⟨tid, ty, st.getD "Initial", nri.pspReference, tsp, am⟩]) :
    txActions cfg p' nri ty st = Except.ok [] := by
  obtain ⟨tid, tsp, am, htr⟩ := htr
  obtain ⟨s, hs⟩ : ∃ s, st = some s := by
    cases st with
    | none => simp [transactionStateFlow] at hst
    | some s => exact ⟨s, rfl⟩
  subst hs
  obtain ⟨k, hk⟩ : ∃ k, transactionStateFlow (some s) = some k := by
    cases hfk : transactionStateFlow (some s) with
    | none => rw [hfk] at hst; simp at hst
    | some k => exact ⟨k, rfl⟩
  have hfind2 : p'.transactions.find? (fun t => t.interactionId == nri.pspReference) =
      some ⟨tid, ty, (some s).getD "Initial", nri.pspReference, tsp, am⟩ := by
    rw [htr, List.find?_append, hfind]
    simp
  simp [txActions, hfind2, compareTransactionStates, hk]

theorem find?_interactionId_map (f : Transaction → Transaction)
    (hf : ∀ t, (f t).interactionId = t.interactionId) (r : Option String) :
    ∀ l : List Transaction,
    (l.map f).find? (fun t => t.interactionId == r) =
      (l.find? (fun t => t.interactionId == r)).map f := by
  intro l
  induction l with
  | nil => simp
  | cons t rest ih =>
    simp only [List.map_cons, List.find?_cons, hf t]
    by_cases h : (t.interactionId == r) = true
    · simp [h]
    · simp [h, ih]

theorem txActions_after_advance (cfg : ModuleConfig) (nri : NotificationRequestItem)
    (ty : String) (st : Option String) (p p' : Payment) (oldT : Transaction) (c : Int)
    (ts0 : String)
    (hfind : p.transactions.find? (fun t => t.interactionId == nri.pspReference) =
      some oldT)
    (hcmp : compareTransactionStates (some oldT.state) st = Except.ok c)
    (htr : p'.transactions =
      (p.transactions.map (fun t =>
        if t.id = oldT.id then { t with state := st.getD t.state } else t)).map
      (fun t => if t.id = oldT.id then { t with timestamp := some ts0 } else t)) :
    txActions cfg p' nri ty st = Except.ok [] := by
  obtain ⟨k1, k2, hk1, hk2⟩ : ∃ k1 k2, transactionStateFlow (some oldT.state) = some k1 ∧
      transactionStateFlow st = some k2 := by
    unfold compareTransactionStates at hcmp
    cases h1 : transactionStateFlow (some oldT.state) with
    | none => rw [h1] at hcmp; cases hcmp
    | some k1 =>
      cases h2 : transactionStateFlow st with
      | none => rw [h1, h2] at hcmp; cases hcmp
      | some k2 => exact ⟨k1, k2, rfl, rfl⟩
  obtain ⟨s, hs⟩ : ∃ s, st = some s := by
    cases st with
    | none => simp [transactionStateFlow] at hk2
    | some s => exact ⟨s, rfl⟩
  subst hs
  have hm1 : (p.transactions.map (fun t =>
      if t.id = oldT.id then { t with state := (some s).getD t.state } else t)).find?
        (fun t => t.interactionId == nri.pspReference) =
      some { oldT with state := s } := by
    rw [find?_interactionId_map _ (fun t => by by_cases hid : t.id = oldT.id <;> simp [hid])
      nri.pspReference p.transactions, hfind]
    simp
  have hm2 : p'.transactions.find? (fun t => t.interactionId == nri.pspReference) =
      some { oldT with state := s, timestamp := some ts0 } := by
    rw [htr, find?_interactionId_map _
      (fun t => by by_cases hid : t.id = oldT.id <;> simp [hid]) nri.pspReference _, hm1]
    simp
  simp [txActions, hm2, compareTransactionStates, hk2]

theorem txActions_after_same (cfg : ModuleConfig) (nri : NotificationRequestItem)
    (ty : String) (st : Option String) (p p' : Payment) (oldT : Transaction) (c : Int)
    (hfind : p.transactions.find? (fun t => t.interactionId == nri.pspReference) =
      some oldT)
    (hcmp : compareTransactionStates (some oldT.state) st = Except.ok c)
    (hc : ¬ c > 0)
    (htr : p'.transactions = p.transactions) :
    txActions cfg p' nri ty st = Except.ok [] := by
  simp only [txActions, htr, hfind, hcmp]
  rw [if_neg hc]

/-- C1 (amended): re-running the planner with the same notification against
the aggregate that results from applying the first plan produces an empty
plan, provided the serialized notification stored by the emitted
AddInterfaceInteraction equals the original serialization (which holds
whenever the notification reports failure, or redaction is off and no
recurring field is hoisted — but not for arbitrary additionalData under
removeSensitiveData), and the event table resolves the notification to a
valid transaction state whenever it resolves it to a transaction type. -/
theorem plan_empty_after_apply (cfg : ModuleConfig) (freshIds : Nat → String)
    (p : Payment) (n : Notification) (acts : List UpdateAction)
    (hpayload : interactionPayload cfg n = n)
    (hstate : ∀ ty,
      (getTransactionTypeAndStateOrNull cfg.adyenEvents n.requestItem).transactionType =
        some ty →
      (transactionStateFlow
        (getTransactionTypeAndStateOrNull cfg.adyenEvents n.requestItem).transactionState).isSome
        = true)
    (hplan : calculateUpdateActionsForPayment cfg p n = Except.ok acts) :
    calculateUpdateActionsForPayment cfg (applyUpdateActions freshIds p acts) n =
      Except.ok [] := by
  obtain ⟨txa, ka, hacts, hcase⟩ := calc_ok_decomp cfg p n acts hplan
  set p' := applyUpdateActions freshIds p acts with hp'
  -- block membership facts
  have hia_mem : ∀ a ∈ (if isNotificationInInterfaceInteraction p n = false
      then [getAddInterfaceInteractionUpdateAction cfg n] else []),
      a = getAddInterfaceInteractionUpdateAction cfg n := by
    intro a ha
    by_cases hdup : isNotificationInInterfaceInteraction p n = false
    · rw [if_pos hdup] at ha
      simpa using ha
    · rw [if_neg hdup] at ha
      cases ha
  have hia_nokey : ∀ a ∈ (if isNotificationInInterfaceInteraction p n = false
      then [getAddInterfaceInteractionUpdateAction cfg n] else []),
      ∀ r, a ≠ UpdateAction.setKey r := by
    intro a ha r
    rw [hia_mem a ha]
    simp [getAddInterfaceInteractionUpdateAction]
  have hia_nomethod : ∀ a ∈ (if isNotificationInInterfaceInteraction p n = false
      then [getAddInterfaceInteractionUpdateAction cfg n] else []),
      ∀ r, a ≠ UpdateAction.setMethodInfoMethod r := by
    intro a ha r
    rw [hia_mem a ha]
    simp [getAddInterfaceInteractionUpdateAction]
  have hia_notx : ∀ a ∈ (if isNotificationInInterfaceInteraction p n = false
      then [getAddInterfaceInteractionUpdateAction cfg n] else []),
      isTxAction a = false := by
    intro a ha
    rw [hia_mem a ha]
    simp [getAddInterfaceInteractionUpdateAction, isTxAction]
  have htxa_istx : ∀ a ∈ txa, isTxAction a = true := by
    rcases hcase with ⟨_, rfl, _⟩ | ⟨ty, hts, htxa, _⟩
    · intro a ha
      cases ha
    · exact txActions_mem_isTx cfg p n.requestItem ty _ txa htxa
  have htxa_nokey : ∀ a ∈ txa, ∀ r, a ≠ UpdateAction.setKey r :=
    fun a ha => isTxAction_ne_setKey a (htxa_istx a ha)
  have htxa_nomethod : ∀ a ∈ txa, ∀ r, a ≠ UpdateAction.setMethodInfoMethod r :=
    fun a ha => isTxAction_ne_setMethod a (htxa_istx a ha)
  have hka_mem : ∀ a ∈ ka, ∃ r, a = UpdateAction.setKey r := by
    rcases hcase with ⟨_, _, rfl⟩ | ⟨ty, hts, htxa, rfl⟩
    · intro a ha
      cases ha
    · exact keyActions_mem p n.requestItem
  have hka_notx : ∀ a ∈ ka, isTxAction a = false := by
    intro a ha
    obtain ⟨r, rfl⟩ := hka_mem a ha
    simp [isTxAction]
  have hka_nomethod : ∀ a ∈ ka, ∀ r, a ≠ UpdateAction.setMethodInfoMethod r := by
    intro a ha r
    obtain ⟨r', rfl⟩ := hka_mem a ha
    simp
  have hma_nokey : ∀ a ∈ methodActions cfg p n.requestItem,
      ∀ r, a ≠ UpdateAction.setKey r := by
    intro a ha r
    rcases methodActions_mem cfg p n.requestItem a ha with ⟨m, rfl⟩ | ⟨nm, rfl⟩ <;> simp
  have hma_notx : ∀ a ∈ methodActions cfg p n.requestItem, isTxAction a = false := by
    intro a ha
    rcases methodActions_mem cfg p n.requestItem a ha with ⟨m, rfl⟩ | ⟨nm, rfl⟩ <;>
      simp [isTxAction]
  -- field evolution under the applied plan
  have hkey2 : p'.key = ka.foldl keyStep p.key := by
    rw [hp', applyUpdateActions, applyFrom_key, hacts]
    simp only [List.foldl_append]
    rw [foldl_keyStep_of_no_setKey _ hia_nokey, foldl_keyStep_of_no_setKey _ htxa_nokey,
      foldl_keyStep_of_no_setKey _ hma_nokey]
  have hmeth2 : p'.paymentMethodInfo =
      (methodActions cfg p n.requestItem).foldl methodStep p.paymentMethodInfo := by
    rw [hp', applyUpdateActions, applyFrom_paymentMethodInfo, hacts]
    simp only [List.foldl_append]
    rw [foldl_methodStep_of_no_setMethod _ hia_nomethod,
      foldl_methodStep_of_no_setMethod _ htxa_nomethod,
      foldl_methodStep_of_no_setMethod _ hka_nomethod]
  have hii2 : p'.interfaceInteractions =
      p.interfaceInteractions ++ acts.filterMap interactionEntry := by
    rw [hp', applyUpdateActions, applyFrom_interfaceInteractions]
  have htrans : p'.transactions =
      txFoldFrom freshIds
        (0 + (if isNotificationInInterfaceInteraction p n = false
          then [getAddInterfaceInteractionUpdateAction cfg n] else []).length)
        txa p.transactions := by
    rw [hp', applyUpdateActions, applyFrom_transactions, hacts, txFoldFrom_append,
      txFoldFrom_of_no_txAction freshIds _ hma_notx, txFoldFrom_append,
      txFoldFrom_of_no_txAction freshIds _ hka_notx, txFoldFrom_append,
      txFoldFrom_of_no_txAction freshIds _ hia_notx]
  -- the applied aggregate already records the notification
  have hdedupe : isNotificationInInterfaceInteraction p' n = true := by
    apply isIn_append_of_entry p p' n _ hii2
    by_cases hdup : isNotificationInInterfaceInteraction p n = true
    · exact Or.inl hdup
    · right
      refine ⟨⟨some n, interactionStatus n, "notification", cfg.now⟩, ?_, rfl⟩
    
      rw [List.mem_filterMap]
      refine ⟨getAddInterfaceInteractionUpdateAction cfg n, ?_, ?_⟩
      · rw [hacts]
        have hdup' : isNotificationInInterfaceInteraction p n = false := by
          simpa using hdup
        simp [hdup']
      · simp [getAddInterfaceInteractionUpdateAction, interactionEntry, hpayload]
  -- assemble the second planning pass
  rcases hcase with ⟨hts, htxa0, hka0⟩ | ⟨ty, hts, htxa, hkaeq⟩
  · subst htxa0
    subst hka0
    have hma2 := methodActions_idem cfg p p' n.requestItem hmeth2
    simp only [calculateUpdateActionsForPayment, hdedupe, hts, hma2]
    simp
  · subst hkaeq
    have hma2 := methodActions_idem cfg p p' n.requestItem hmeth2
    have hka2 := keyActions_idem p p' n.requestItem hkey2
    have htx2 : txActions cfg p' n.requestItem ty
        (getTransactionTypeAndStateOrNull cfg.adyenEvents n.requestItem).transactionState =
        Except.ok [] := by
      rcases txActions_shape cfg p n.requestItem ty _ txa htxa with
        ⟨hfind, htsh⟩ | ⟨oldT, c, hfind, hcmp, ⟨hgt, htsh⟩ | ⟨hgt, htsh⟩⟩
      · subst htsh
        apply txActions_after_add cfg n.requestItem ty _ p p' (hstate ty hts) hfind
        rw [htrans]
        refine ⟨freshIds (0 + (if isNotificationInInterfaceInteraction p n = false
          then [getAddInterfaceInteractionUpdateAction cfg n] else []).length),
          some (convertDateToUTCFormat cfg n.requestItem.eventDate),
          some ⟨n.requestItem.amount.value, n.requestItem.amount.currency⟩, ?_⟩
        simp [txFoldFrom, txStep, getAddTransactionUpdateAction]
      · subst htsh
        apply txActions_after_advance cfg n.requestItem ty _ p p' oldT c
          (convertDateToUTCFormat cfg n.requestItem.eventDate) hfind hcmp
        rw [htrans]
        simp [txFoldFrom, txStep, getChangeTransactionStateUpdateAction,
          getChangeTransactionTimestampUpdateAction]
      · subst htsh
        apply txActions_after_same cfg n.requestItem ty _ p p' oldT c hfind hcmp hgt
        rw [htrans]
        simp [txFoldFrom]
    simp only [calculateUpdateActionsForPayment, hdedupe, hts, htx2, hka2, hma2]
    simp

/-! ### Claim theorems -/

/-- C1 (counterexample): with redaction configured and additional data
present, the first plan stores a redacted serialization, so re-running the
planner against the applied aggregate emits the interaction again — the plan
is not empty, refuting idempotence "regardless of the notification's
additionalData content and of the removeSensitiveData configuration". -/
theorem duplicate_interaction_after_redacted_apply :
    calculateUpdateActionsForPayment redactingConfig paymentM1 notifWithAdditionalData =
      Except.ok redactedFirstPlan ∧
    calculateUpdateActionsForPayment redactingConfig
      (applyUpdateActions txIds paymentM1 redactedFirstPlan) notifWithAdditionalData ≠
      Except.ok [] :=
  ⟨by decide, by decide⟩

/-- C1 (witness): a successful AUTHORISATION with additional data, redaction
off: the first plan records the interaction, adds the transaction and rekeys;
re-planning after applying it yields the empty plan. -/
theorem plan_empty_after_apply_witness :
    interactionPayload authEventConfig notifWithAdditionalData = notifWithAdditionalData ∧
    calculateUpdateActionsForPayment authEventConfig paymentM1 notifWithAdditionalData =
      Except.ok idempotentScenarioPlan ∧
    calculateUpdateActionsForPayment authEventConfig
      (applyUpdateActions txIds paymentM1 idempotentScenarioPlan) notifWithAdditionalData =
      Except.ok [] :=
  ⟨by decide, by decide,
    plan_empty_after_apply authEventConfig txIds paymentM1 notifWithAdditionalData
      idempotentScenarioPlan (by decide) (fun ty _ => by decide) (by decide)⟩

theorem calc_scrub_config_invariant (cfgA cfgB : ModuleConfig)
    (h1 : cfgA.adyenEvents = cfgB.adyenEvents)
    (h2 : cfgA.now = cfgB.now)
    (h3 : cfgA.toUTC = cfgB.toUTC)
    (h4 : cfgA.paymentMethodsToNames = cfgB.paymentMethodsToNames)
    (p : Payment) (n : Notification) :
    (calculateUpdateActionsForPayment cfgA p n).map (List.map scrubStoredNotification) =
    (calculateUpdateActionsForPayment cfgB p n).map (List.map scrubStoredNotification) := by
  have htx : ∀ ty st, txActions cfgA p n.requestItem ty st =
      txActions cfgB p n.requestItem ty st := by
    intro ty st
    unfold txActions getAddTransactionUpdateAction getChangeTransactionTimestampUpdateAction
      convertDateToUTCFormat
    rw [h2, h3]
  have hma : methodActions cfgA p n.requestItem = methodActions cfgB p n.requestItem := by
    unfold methodActions
    rw [h4]
  have hia : scrubStoredNotification (getAddInterfaceInteractionUpdateAction cfgA n) =
      scrubStoredNotification (getAddInterfaceInteractionUpdateAction cfgB n) := by
    unfold getAddInterfaceInteractionUpdateAction scrubStoredNotification
    rw [h2]
  simp only [calculateUpdateActionsForPayment, ← h1]
  cases hd : (getTransactionTypeAndStateOrNull cfgA.adyenEvents n.requestItem).transactionType with
  | none =>
    simp only [hd, Except.map]
    by_cases hdup : isNotificationInInterfaceInteraction p n = false <;>
      simp [hdup, hma, hia]
  | some ty =>
    simp only [hd, ← htx]
    cases htxa : txActions cfgA p n.requestItem ty
        (getTransactionTypeAndStateOrNull cfgA.adyenEvents n.requestItem).transactionState with
    | error e => simp only [htxa, Except.map]
    | ok txa =>
      simp only [htxa, Except.map]
      by_cases hdup : isNotificationInInterfaceInteraction p n = false <;>
        simp [hdup, hma, hia]

/-- C2 (amended): for every (aggregate, notification) pair the plans produced
under the two values of removeSensitiveData agree once the serialized
notification stored inside AddInterfaceInteraction actions is disregarded:
the flag changes only that stored payload, never which actions are produced,
their order, or any other field. -/
theorem redaction_flag_changes_only_stored_payload (cfg : ModuleConfig) (b₁ b₂ : Bool)
    (p : Payment) (n : Notification) :
    (calculateUpdateActionsForPayment { cfg with removeSensitiveData := b₁ } p n).map
      (List.map scrubStoredNotification) =
    (calculateUpdateActionsForPayment { cfg with removeSensitiveData := b₂ } p n).map
      (List.map scrubStoredNotification) :=
  calc_scrub_config_invariant { cfg with removeSensitiveData := b₁ }
    { cfg with removeSensitiveData := b₂ } rfl rfl rfl rfl p n

/-- C2 (counterexample): with a successful notification carrying additional
data, the plan under redaction differs from the plan without it (the stored
serialized notification loses its additionalData), refuting that the update
actions are identical under both flag values. -/
theorem redaction_flag_changes_plan :
    redactingConfig = { baseConfig with removeSensitiveData := true } ∧
    calculateUpdateActionsForPayment redactingConfig paymentM1 notifWithAdditionalData ≠
      calculateUpdateActionsForPayment baseConfig paymentM1 notifWithAdditionalData :=
  ⟨rfl, by decide⟩

/-- C3: the conflict-retry loop of updatePaymentWithRepeater succeeds after
19 concurrent-modification conflicts followed by a success (20 update calls,
19 refetches), and fails fatally on the 21st consecutive conflict — when the
attempt counter exceeds the budget of 20 — with an error reporting the last
attempted version (21, adopted from the last refetched snapshot) and the
store-reported current version (120). -/
theorem conflict_retry_bound :
    updatePaymentWithRepeater baseConfig captureFailedNotif conflictClient19 basePayment
      0 0 = (Except.ok (), 20, 19) ∧
    updatePaymentWithRepeater baseConfig captureFailedNotif conflictClient21 basePayment
      0 0 = (Except.error (HandlerError.concurrentModificationLimit "pay-1" 21 120),
        21, 20) :=
  ⟨by decide, by decide⟩

/-- C5 (amended): the AddInterfaceInteraction status is the lowercased event
code when the notification reports success, and the lowercased event code
with `_failed` appended when it does not (the source lowercases before
branching, so the success status is not the event code unchanged). -/
theorem interaction_status_lowercased (cfg : ModuleConfig) (n : Notification) (ec : String)
    (h : n.requestItem.eventCode = some ec) :
    actionStatus (getAddInterfaceInteractionUpdateAction cfg n) =
      some (if n.requestItem.success then lowerString ec
            else lowerString ec ++ "_failed") := by
  unfold getAddInterfaceInteractionUpdateAction actionStatus interactionStatus
    lowercasedEventCode
  rw [h]
  by_cases hs : n.requestItem.success <;> simp [hs]

/-- C5 (witness): instantiating the amended status rule at the successful
AUTHORISATION notification. -/
theorem interaction_status_lowercased_witness :
    authorisationNotif.requestItem.eventCode = some "AUTHORISATION" ∧
    actionStatus (getAddInterfaceInteractionUpdateAction baseConfig authorisationNotif) =
      some (if authorisationNotif.requestItem.success then lowerString "AUTHORISATION"
            else lowerString "AUTHORISATION" ++ "_failed") :=
  ⟨by decide,
    interaction_status_lowercased baseConfig authorisationNotif "AUTHORISATION" (by decide)⟩

/-- C5 (counterexample): the end-to-end AUTHORISATION scenario stores status
"authorisation", not the unchanged event code "AUTHORISATION". -/
theorem interaction_status_not_uppercase :
    actionStatus (getAddInterfaceInteractionUpdateAction baseConfig authorisationNotif) =
      some "authorisation" ∧
    actionStatus (getAddInterfaceInteractionUpdateAction baseConfig authorisationNotif) ≠
      some "AUTHORISATION" :=
  ⟨by decide, by decide⟩

theorem filter_eq_nil_of_false {α : Type} (pb : α → Bool) (l : List α)
    (h : ∀ a ∈ l, pb a = false) : l.filter pb = [] := by
  induction l with
  | nil => rfl
  | cons a rest ih =>
    simp [List.filter_cons, h a (by simp), ih (fun x hx => h x (by simp [hx]))]

/-- C7 (amended): when a success notification resolves to a non-null
transaction type, the plan contains exactly one SetKey — to the preferred
reference (original reference if truthy, else psp reference) — precisely when
that reference is present, nonempty and differs from the aggregate key; when
it equals the key, is empty, or is absent, no SetKey is produced. -/
theorem rekey_setKey_exactly_once (cfg : ModuleConfig) (p : Payment) (n : Notification)
    (acts : List UpdateAction) (ty : String)
    (hsucc : n.requestItem.success = true)
    (hts : (getTransactionTypeAndStateOrNull cfg.adyenEvents n.requestItem).transactionType =
      some ty)
    (hplan : calculateUpdateActionsForPayment cfg p n = Except.ok acts) :
    (∀ r, jsOrStr n.requestItem.originalReference n.requestItem.pspReference = some r →
      ((r.isEmpty = false ∧ some r ≠ p.key →
          acts.filter isSetKeyAction = [UpdateAction.setKey r]) ∧
       (r.isEmpty = true ∨ some r = p.key → acts.filter isSetKeyAction = []))) ∧
    (jsOrStr n.requestItem.originalReference n.requestItem.pspReference = none →
      acts.filter isSetKeyAction = []) := by
  obtain ⟨txa, ka, hacts, hcase⟩ := calc_ok_decomp cfg p n acts hplan
  rcases hcase with ⟨hts0, _, _⟩ | ⟨ty', hts', htxa, hkaeq⟩
  · rw [hts0] at hts
    cases hts
  · subst hkaeq
    have hia_nil : (if isNotificationInInterfaceInteraction p n = false
        then [getAddInterfaceInteractionUpdateAction cfg n] else []).filter isSetKeyAction
        = [] := by
      apply filter_eq_nil_of_false
      intro a ha
      by_cases hdup : isNotificationInInterfaceInteraction p n = false
      · rw [if_pos hdup] at ha
        simp at ha
        simp [ha, getAddInterfaceInteractionUpdateAction, isSetKeyAction]
      · rw [if_neg hdup] at ha
        cases ha
    have htxa_nil : txa.filter isSetKeyAction = [] := by
      apply filter_eq_nil_of_false
      intro a ha
      have := txActions_mem_isTx cfg p n.requestItem ty' _ txa htxa a ha
      cases a <;> simp_all [isTxAction, isSetKeyAction]
    have hma_nil : (methodActions cfg p n.requestItem).filter isSetKeyAction = [] := by
      apply filter_eq_nil_of_false
      intro a ha
      rcases methodActions_mem cfg p n.requestItem a ha with ⟨m, rfl⟩ | ⟨nm, rfl⟩ <;>
        simp [isSetKeyAction]
    have hfilter : acts.filter isSetKeyAction =
        (keyActions p n.requestItem).filter isSetKeyAction := by
      rw [hacts]
      simp only [List.filter_append, hia_nil, htxa_nil, hma_nil]
      simp
    constructor
    · intro r hr
      constructor
      · intro ⟨hne, hnk⟩
        have hg : (!r.isEmpty && !(some r == p.key)) = true := by
          simp [hne, hnk]
        rw [hfilter]
        simp only [keyActions, hsucc, if_pos rfl, hr, hg]
        simp [isSetKeyAction]
      · intro hcaseq
        have hg : (!r.isEmpty && !(some r == p.key)) = false := by
          rcases hcaseq with he | he <;> simp [he]
        rw [hfilter]
        simp only [keyActions, hsucc, if_pos rfl, hr, hg]
        simp
    · intro hr
      rw [hfilter]
      simp only [keyActions, hsucc, if_pos rfl, hr]
      simp

/-- C7 (witness): success notification with psp reference `P1` against the
aggregate keyed `M1`: the plan contains exactly one SetKey, to `P1`. -/
theorem rekey_setKey_exactly_once_witness :
    rekeyNotif.requestItem.success = true ∧
    (getTransactionTypeAndStateOrNull authEventConfig.adyenEvents
      rekeyNotif.requestItem).transactionType = some "Authorization" ∧
    calculateUpdateActionsForPayment authEventConfig paymentM1 rekeyNotif =
      Except.ok rekeyScenarioPlan ∧
    rekeyScenarioPlan.filter isSetKeyAction = [UpdateAction.setKey "P1"] :=
  ⟨by decide, by decide, by decide, by
    have h := (rekey_setKey_exactly_once authEventConfig paymentM1 rekeyNotif
      rekeyScenarioPlan "Authorization" (by decide) (by decide) (by decide)).1 "P1"
      (by decide)
    exact h.1 ⟨by decide, by decide⟩⟩

/-- C7 (counterexample): with an empty-string psp reference (original
reference absent), the preferred reference differs from the aggregate key
`M1`, yet the plan contains no SetKey — the source additionally requires the
reference to be truthy. -/
theorem rekey_empty_reference_no_setKey :
    emptyPspNotif.requestItem.success = true ∧
    (getTransactionTypeAndStateOrNull authEventConfig.adyenEvents
      emptyPspNotif.requestItem).transactionType = some "Authorization" ∧
    jsOrStr emptyPspNotif.requestItem.originalReference
      emptyPspNotif.requestItem.pspReference = some "" ∧
    paymentM1.key = some "M1" ∧
    (calculateUpdateActionsForPayment authEventConfig paymentM1 emptyPspNotif).map
      (List.filter isSetKeyAction) = Except.ok [] := by
  refine ⟨by decide, by decide, by decide, by decide, by decide⟩

/-- C8: for a CANCEL_OR_REFUND notification matching a mapping-table row, the
resolved transaction type is Refund when additionalData's modification.action
is "refund", CancelAuthorization when it is "cancel", and the row's default
type otherwise (absent or any other value; non-actionable when that default
is null). -/
theorem cancel_or_refund_refinement (events : List AdyenEvent)
    (nri : NotificationRequestItem) (e : AdyenEvent)
    (hcode : nri.eventCode = some "CANCEL_OR_REFUND")
    (hfind : events.find? (fun ev =>
      (some ev.eventCode == nri.eventCode) && (ev.success == nri.success)) = some e) :
    (nri.additionalData.bind (fun ad => lookupAdditionalData ad "modification.action") =
        some "refund" →
      (getTransactionTypeAndStateOrNull events nri).transactionType = some "Refund") ∧
    (nri.additionalData.bind (fun ad => lookupAdditionalData ad "modification.action") =
        some "cancel" →
      (getTransactionTypeAndStateOrNull events nri).transactionType =
        some "CancelAuthorization") ∧
    (nri.additionalData.bind (fun ad => lookupAdditionalData ad "modification.action") ≠
        some "refund" →
     nri.additionalData.bind (fun ad => lookupAdditionalData ad "modification.action") ≠
        some "cancel" →
      (getTransactionTypeAndStateOrNull events nri).transactionType = e.transactionType) := by
  have hbind : (match nri.additionalData with
      | some ad => lookupAdditionalData ad "modification.action"
      | none => none) =
      nri.additionalData.bind (fun ad => lookupAdditionalData ad "modification.action") := by
    cases nri.additionalData <;> rfl
  have hfind2 : events.find? (fun ev =>
      ev.eventCode == "CANCEL_OR_REFUND" && ev.success == nri.success) = some e := by
    simpa [hcode] using hfind
  refine ⟨?_, ?_, ?_⟩
  · intro h
    simp [getTransactionTypeAndStateOrNull, hfind2, hcode, hbind, h]
  · intro h
    simp [getTransactionTypeAndStateOrNull, hfind2, hcode, hbind, h]
  · intro h1 h2
    simp [getTransactionTypeAndStateOrNull, hfind2, hcode, hbind, h1, h2]

/-- C8 (witness): a CANCEL_OR_REFUND notification requesting a refund against
a table row defaulting to CancelAuthorization resolves to Refund. -/
theorem cancel_or_refund_refinement_witness :
    corRefundNotif.requestItem.eventCode = some "CANCEL_OR_REFUND" ∧
    [cancelOrRefundEvent].find? (fun ev =>
      (some ev.eventCode == corRefundNotif.requestItem.eventCode) &&
      (ev.success == corRefundNotif.requestItem.success)) = some cancelOrRefundEvent ∧
    corRefundNotif.requestItem.additionalData.bind
      (fun ad => lookupAdditionalData ad "modification.action") = some "refund" ∧
    (getTransactionTypeAndStateOrNull [cancelOrRefundEvent]
      corRefundNotif.requestItem).transactionType = some "Refund" :=
  ⟨by decide, by decide, by decide,
    (cancel_or_refund_refinement [cancelOrRefundEvent] corRefundNotif.requestItem
      cancelOrRefundEvent (by decide) (by decide)).1 (by decide)⟩

/-- C9: on the failure branch (success falsy) the stored interface
interaction carries the input notification unchanged — additionalData,
reason and the recurring fields exactly as received — for every
configuration, redaction included; hoisting and redaction run only on the
success branch. -/
theorem failure_branch_stores_unchanged (cfg : ModuleConfig) (n : Notification)
    (h : n.requestItem.success = false) :
    getAddInterfaceInteractionUpdateAction cfg n =
      UpdateAction.addInterfaceInteraction cfg.now (lowercasedEventCode n ++ "_failed")
        "notification" n := by
  unfold getAddInterfaceInteractionUpdateAction interactionPayload interactionStatus
  simp [h]

/-- C9 (witness): a failed AUTHORISATION carrying additional data and a
reason is stored verbatim even with redaction configured. -/
theorem failure_branch_stores_unchanged_witness :
    failedNotifWithData.requestItem.success = false ∧
    getAddInterfaceInteractionUpdateAction redactingConfig failedNotifWithData =
      UpdateAction.addInterfaceInteraction redactingConfig.now
        (lowercasedEventCode failedNotifWithData ++ "_failed") "notification"
        failedNotifWithData :=
  ⟨by decide, failure_branch_stores_unchanged redactingConfig failedNotifWithData (by decide)⟩

/-- C10: a plan contains a ChangeTransactionState action exactly when it
contains a ChangeTransactionTimestamp action; when present they are adjacent
in that order, carry the id of the existing transaction whose interactionId
equals the notification's psp reference, and are emitted only when the
resolved state strictly advances that transaction's current state. -/
theorem change_state_timestamp_paired (cfg : ModuleConfig) (p : Payment)
    (n : Notification) (acts : List UpdateAction)
    (hplan : calculateUpdateActionsForPayment cfg p n = Except.ok acts) :
    (∀ a ∈ acts, isChangeTxAction a = false) ∨
    (∃ pre post oldT c,
      p.transactions.find? (fun t => t.interactionId == n.requestItem.pspReference) =
        some oldT ∧
      compareTransactionStates (some oldT.state)
        (getTransactionTypeAndStateOrNull cfg.adyenEvents n.requestItem).transactionState =
        Except.ok c ∧
      0 < c ∧
      acts = pre ++ UpdateAction.changeTransactionState oldT.id
          (getTransactionTypeAndStateOrNull cfg.adyenEvents n.requestItem).transactionState ::
        UpdateAction.changeTransactionTimestamp oldT.id
          (convertDateToUTCFormat cfg n.requestItem.eventDate) :: post ∧
      (∀ a ∈ pre, isChangeTxAction a = false) ∧
      (∀ a ∈ post, isChangeTxAction a = false)) := by
  obtain ⟨txa, ka, hacts, hcase⟩ := calc_ok_decomp cfg p n acts hplan
  have hia : ∀ a ∈ (if isNotificationInInterfaceInteraction p n = false
      then [getAddInterfaceInteractionUpdateAction cfg n] else []),
      isChangeTxAction a = false := by
    intro a ha
    by_cases hdup : isNotificationInInterfaceInteraction p n = false
    · rw [if_pos hdup] at ha
      simp at ha
      simp [ha, getAddInterfaceInteractionUpdateAction, isChangeTxAction]
    · rw [if_neg hdup] at ha
      cases ha
  have hma : ∀ a ∈ methodActions cfg p n.requestItem, isChangeTxAction a = false := by
    intro a ha
    rcases methodActions_mem cfg p n.requestItem a ha with ⟨m, rfl⟩ | ⟨nm, rfl⟩ <;>
      simp [isChangeTxAction]
  rcases hcase with ⟨hts, htxa0, hka0⟩ | ⟨ty, hts, htxa, hkaeq⟩
  · subst htxa0
    subst hka0
    left
    intro a ha
    rw [hacts] at ha
    rcases List.mem_append.mp ha with h1 | h1
    · rcases List.mem_append.mp h1 with h2 | h2
      · rcases List.mem_append.mp h2 with h3 | h3
        · exact hia a h3
        · exact absurd h3 (List.not_mem_nil a)
      · exact absurd h2 (List.not_mem_nil a)
    · exact hma a h1
  · subst hkaeq
    have hka : ∀ a ∈ keyActions p n.requestItem, isChangeTxAction a = false := by
      intro a ha
      obtain ⟨r, rfl⟩ := keyActions_mem p n.requestItem a ha
      simp [isChangeTxAction]
    rcases txActions_shape cfg p n.requestItem ty _ txa htxa with
      ⟨hfind, htash⟩ | ⟨oldT, c, hfind, hcmp, ⟨hgt, htash⟩ | ⟨hgt, htash⟩⟩
    · subst htash
      left
      intro a ha
      rw [hacts] at ha
      rcases List.mem_append.mp ha with h1 | h1
      · rcases List.mem_append.mp h1 with h2 | h2
        · rcases List.mem_append.mp h2 with h3 | h3
          · exact hia a h3
          · simp [getAddTransactionUpdateAction] at h3
            simp [h3, isChangeTxAction]
        · exact hka a h2
      · exact hma a h1
    · subst htash
      right
      refine ⟨(if isNotificationInInterfaceInteraction p n = false
          then [getAddInterfaceInteractionUpdateAction cfg n] else []),
        keyActions p n.requestItem ++ methodActions cfg p n.requestItem, oldT, c,
        hfind, hcmp, hgt, ?_, hia, ?_⟩
      · rw [hacts]
        simp [getChangeTransactionStateUpdateAction,
          getChangeTransactionTimestampUpdateAction, List.append_assoc]
      · intro a ha
        rcases List.mem_append.mp ha with ha | ha
        · exact hka a ha
        · exact hma a ha
    · subst htash
      left
      intro a ha
      rw [hacts] at ha
      rcases List.mem_append.mp ha with h1 | h1
      · rcases List.mem_append.mp h1 with h2 | h2
        · rcases List.mem_append.mp h2 with h3 | h3
          · exact hia a h3
          · exact absurd h3 (List.not_mem_nil a)
        · exact hka a h2
      · exact hma a h1

/-- C10 (witness): against a payment holding a pending authorization created
by psp reference `P1`, a successful AUTHORISATION advances it: the plan is
the interaction record followed by the adjacent
ChangeTransactionState/ChangeTransactionTimestamp pair for that
transaction. -/
theorem change_state_timestamp_paired_witness :
    calculateUpdateActionsForPayment authEventConfig pendingAuthPayment rekeyNotif =
      Except.ok pendingAdvancePlan ∧
    ((∀ a ∈ pendingAdvancePlan, isChangeTxAction a = false) ∨
     (∃ pre post oldT c,
       pendingAuthPayment.transactions.find?
         (fun t => t.interactionId == rekeyNotif.requestItem.pspReference) = some oldT ∧
       compareTransactionStates (some oldT.state)
         (getTransactionTypeAndStateOrNull authEventConfig.adyenEvents
           rekeyNotif.requestItem).transactionState = Except.ok c ∧
       0 < c ∧
       pendingAdvancePlan = pre ++ UpdateAction.changeTransactionState oldT.id
           (getTransactionTypeAndStateOrNull authEventConfig.adyenEvents
             rekeyNotif.requestItem).transactionState ::
         UpdateAction.changeTransactionTimestamp oldT.id
           (convertDateToUTCFormat authEventConfig rekeyNotif.requestItem.eventDate) ::
         post ∧
       (∀ a ∈ pre, isChangeTxAction a = false) ∧
       (∀ a ∈ post, isChangeTxAction a = false))) :=
  ⟨by decide,
    change_state_timestamp_paired authEventConfig pendingAuthPayment rekeyNotif
      pendingAdvancePlan (by decide)⟩

theorem handleWebhookAux_fetch_le (cfg : ModuleConfig) (n : Notification)
    (client : CtpClient) (mr : Option String) :
    ∀ (fuel kIdx uIdx fIdx rc : Nat) (d : List Nat),
    (handleWebhookAux cfg n client mr fuel kIdx uIdx fIdx rc d).fetchByKeysCalls ≤
      kIdx + fuel := by
  intro fuel
  induction fuel with
  | zero =>
    intro k u f rc d
    simp [handleWebhookAux]
  | succ fuel ih =>
    intro k u f rc d
    simp only [handleWebhookAux]
    repeat' split
    all_goals
      first
        | exact Nat.le_trans (ih (k + 1) _ _ (rc + 1) (d ++ [1000])) (by omega)
        | (simp; try omega)

theorem handleWebhookAux_single_attempt (cfg : ModuleConfig) (n : Notification)
    (client : CtpClient) (mr : Option String)
    (h : n.requestItem.eventCode ≠ some "AUTHORISATION") :
    ∀ (fuel k u f rc : Nat) (d : List Nat),
    (handleWebhookAux cfg n client mr (fuel + 1) k u f rc d).fetchByKeysCalls = k + 1 := by
  intro fuel k u f rc d
  have hcond : ¬(rc + 1 < maxResolveRetry ∧
      n.requestItem.eventCode = some "AUTHORISATION") := fun hc => h hc.2
  simp only [handleWebhookAux]
  split
  · rfl
  · split
    · rfl
    · rw [if_neg hcond]
      split
      · split
        · rfl
        · rfl
      · rfl

/-- C4: resolution retry happens only for event code AUTHORISATION, with at
most 7 resolution attempts and a recorded 1000 ms sleep before each retry: a
resolver finding nothing on the first six calls and a payment-ready aggregate
(whose plan is already empty) on the seventh succeeds after exactly 7
attempts and 6 unit delays, while for any other event code exactly one
resolution attempt is made, whatever the store does. -/
theorem resolution_retry_bound :
    (∀ (cfg : ModuleConfig) (n : Notification) (client : CtpClient),
      n.requestItem.eventCode = some "AUTHORISATION" →
      (processNotification cfg n false none client).fetchByKeysCalls ≤ 7) ∧
    processNotification baseConfig authorisationNotif false none lateResolveClient =
      ⟨Except.ok (), 7, 0, 0, [1000, 1000, 1000, 1000, 1000, 1000]⟩ ∧
    (∀ (cfg : ModuleConfig) (n : Notification) (client : CtpClient),
      n.requestItem.eventCode ≠ some "AUTHORISATION" →
      (processNotification cfg n false none client).fetchByKeysCalls = 1) := by
  refine ⟨?_, by decide, ?_⟩
  · intro cfg n client _
    exact handleWebhookAux_fetch_le cfg n client n.requestItem.merchantReference 7 0 0 0 0 []
  · intro cfg n client h
    exact handleWebhookAux_single_attempt cfg n client n.requestItem.merchantReference h
      6 0 0 0 0 []

/-- C4 (witness): the bound and the single-attempt rule at concrete inputs —
the AUTHORISATION scenario makes at most (and exactly) 7 attempts, and the
failed-CAPTURE notification makes exactly 1. -/
theorem resolution_retry_bound_witness :
    authorisationNotif.requestItem.eventCode = some "AUTHORISATION" ∧
    (processNotification baseConfig authorisationNotif false none
      lateResolveClient).fetchByKeysCalls ≤ 7 ∧
    captureFailedNotif.requestItem.eventCode ≠ some "AUTHORISATION" ∧
    (processNotification baseConfig captureFailedNotif false none
      lateResolveClient).fetchByKeysCalls = 1 :=
  ⟨by decide,
    resolution_retry_bound.1 baseConfig authorisationNotif lateResolveClient (by decide),
    by decide,
    resolution_retry_bound.2.2 baseConfig captureFailedNotif lateResolveClient (by decide)⟩

theorem repeaterAux_error_kinds (cfg : ModuleConfig) (n : Notification)
    (client : CtpClient) :
    ∀ (fuel : Nat) (p : Payment) (v rc u f : Nat) (e : HandlerError),
    maxUpdateRetry + 1 ≤ rc + fuel → rc ≤ maxUpdateRetry →
    (repeaterAux cfg n client fuel p v rc u f).1 = Except.error e →
    (∃ m, e = HandlerError.planError m) ∨
    (∃ id c, e = HandlerError.unexpectedUpdateError id c) ∨
    (∃ id v1 cv, e = HandlerError.concurrentModificationLimit id v1 cv) := by
  intro fuel
  induction fuel with
  | zero =>
    intro p v rc u f e h1 h2 h3
    simp [maxUpdateRetry] at h1 h2
    omega
  | succ fuel ih =>
    intro p v rc u f e h1 h2 h3
    simp only [repeaterAux] at h3
    cases hc : calculateUpdateActionsForPayment cfg p n with
    | error msg =>
      simp only [hc] at h3
      simp at h3
      exact Or.inl ⟨msg, h3.symm⟩
    | ok acts =>
      simp only [hc] at h3
      by_cases hlen : acts.length = 0
      · rw [if_pos hlen] at h3
        cases h3
      · rw [if_neg hlen] at h3
        cases hu : client.update u with
        | success =>
          simp only [hu] at h3
          cases h3
        | otherError code =>
          simp only [hu] at h3
          simp at h3
          exact Or.inr (Or.inl ⟨p.id, code, h3.symm⟩)
        | conflict cv =>
          simp only [hu] at h3
          by_cases hrc : rc + 1 > maxUpdateRetry
          · rw [if_pos hrc] at h3
            simp at h3
            exact Or.inr (Or.inr ⟨p.id, v, cv, h3.symm⟩)
          · rw [if_neg hrc] at h3
            cases hf : client.fetchById f with
            | some body =>
              simp only [hf] at h3
              exact ih body body.version (rc + 1) (u + 1) (f + 1) e (by omega) (by omega) h3
            | none =>
              simp only [hf] at h3
              exact ih p v (rc + 1) (u + 1) (f + 1) e (by omega) (by omega) h3

theorem getPaymentByMerchantReference_error (r : FetchByKeysResult) (e : HandlerError)
    (h : getPaymentByMerchantReference r = Except.error e) :
    ∃ c, e = HandlerError.fetchError c ∧ c ≠ 404 := by
  cases r with
  | ok payment => cases h
  | err code =>
    unfold getPaymentByMerchantReference at h
    simp only [] at h
    by_cases hc : code = 404
    · rw [if_pos hc] at h
      cases h
    · rw [if_neg hc] at h
      simp at h
      exact ⟨code, h.symm, hc⟩

theorem handleWebhookAux_error_kinds (cfg : ModuleConfig) (n : Notification)
    (client : CtpClient) (mr : Option String) :
    ∀ (fuel k u f rc : Nat) (d : List Nat) (e : HandlerError),
    maxResolveRetry ≤ rc + fuel → rc < maxResolveRetry →
    (handleWebhookAux cfg n client mr fuel k u f rc d).result = Except.error e →
    (∃ c, e = HandlerError.fetchError c ∧ c ≠ 404) ∨
    (∃ m, e = HandlerError.planError m) ∨
    (∃ id c, e = HandlerError.unexpectedUpdateError id c) ∨
    (∃ id v cv, e = HandlerError.concurrentModificationLimit id v cv) := by
  intro fuel
  induction fuel with
  | zero =>
    intro k u f rc d e h1 h2 h3
    simp [maxResolveRetry] at h1 h2
    omega
  | succ fuel ih =>
    intro k u f rc d e h1 h2 h3
    simp only [handleWebhookAux] at h3
    cases hg : getPaymentByMerchantReference (client.fetchByKeys k) with
    | error e0 =>
      simp only [hg] at h3
      simp at h3
      subst h3
      exact Or.inl (getPaymentByMerchantReference_error _ _ hg)
    | ok payment =>
      simp only [hg] at h3
      cases payment with
      | none =>
        simp only [] at h3
        by_cases hcond : rc + 1 < maxResolveRetry ∧
            n.requestItem.eventCode = some "AUTHORISATION"
        · rw [if_pos hcond] at h3
          exact ih (k + 1) u f (rc + 1) (d ++ [1000]) e (by omega) hcond.1 h3
        · rw [if_neg hcond] at h3
          cases h3
      | some p =>
        simp only [] at h3
        by_cases hr : paymentReady p
        · rw [if_pos hr] at h3
          rcases hu : updatePaymentWithRepeater cfg n client p u f with ⟨res, u1, f1⟩
          rw [hu] at h3
          cases res with
          | ok _ => simp at h3
          | error err =>
            simp only [] at h3
            by_cases hcond : rc + 1 < maxResolveRetry ∧
                n.requestItem.eventCode = some "AUTHORISATION"
            · rw [if_pos hcond] at h3
              exact ih (k + 1) u1 f1 (rc + 1) (d ++ [1000]) e (by omega) hcond.1 h3
            · rw [if_neg hcond] at h3
              rcases hu2 : updatePaymentWithRepeater cfg n client p u1 f1 with ⟨res2, u2, f2⟩
              rw [hu2] at h3
              cases res2 with
              | ok _ => simp at h3
              | error e2 =>
                simp at h3
                subst h3
                have hrep : (repeaterAux cfg n client (maxUpdateRetry + 1) p p.version 0
                    u1 f1).1 = Except.error e2 := by
                  unfold updatePaymentWithRepeater at hu2
                  rw [hu2]
                exact Or.inr (repeaterAux_error_kinds cfg n client (maxUpdateRetry + 1) p
                  p.version 0 u1 f1 e2 (by omega) (by omega) hrep)
        · rw [if_neg hr] at h3
          simp only [] at h3
          by_cases hcond : rc + 1 < maxResolveRetry ∧
              n.requestItem.eventCode = some "AUTHORISATION"
          · rw [if_pos hcond] at h3
            exact ih (k + 1) u f (rc + 1) (d ++ [1000]) e (by omega) hcond.1 h3
          · rw [if_neg hcond] at h3
            rcases hu2 : updatePaymentWithRepeater cfg n client p u f with ⟨res2, u2, f2⟩
            rw [hu2] at h3
            cases res2 with
            | ok _ => simp at h3
            | error e2 =>
              simp at h3
              subst h3
              have hrep : (repeaterAux cfg n client (maxUpdateRetry + 1) p p.version 0
                  u f).1 = Except.error e2 := by
                unfold updatePaymentWithRepeater at hu2
                rw [hu2]
              exact Or.inr (repeaterAux_error_kinds cfg n client (maxUpdateRetry + 1) p
                p.version 0 u f e2 (by omega) (by omega) hrep)

/-- C6 (amended): the only errors that can escape processNotification are a
non-404 failure of the initial aggregate fetch (performed before the try
block) and a failure of the best-effort apply attempt performed inside the
error handler (a planner state error, a non-409 store error, or the
concurrent-modification retry limit); in particular the not-yet-created
condition and HMAC rejection never propagate, but the claim that no error
ever propagates is false. -/
theorem errors_escaping_processNotification (cfg : ModuleConfig) (n : Notification)
    (enableHmacSignature : Bool) (hmacError : Option String) (client : CtpClient)
    (e : HandlerError)
    (h : (processNotification cfg n enableHmacSignature hmacError client).result =
      Except.error e) :
    (∃ c, e = HandlerError.fetchError c ∧ c ≠ 404) ∨
    (∃ m, e = HandlerError.planError m) ∨
    (∃ id c, e = HandlerError.unexpectedUpdateError id c) ∨
    (∃ id v cv, e = HandlerError.concurrentModificationLimit id v cv) := by
  unfold processNotification at h
  cases hb : (enableHmacSignature && hmacError.isSome) with
  | true =>
    rw [hb] at h
    simp at h
  | false =>
    rw [hb] at h
    simp only [Bool.false_eq_true, if_false] at h
    exact handleWebhookAux_error_kinds cfg n client n.requestItem.merchantReference
      maxResolveRetry 0 0 0 0 [] e (by simp) (by simp [maxResolveRetry]) h

/-- C6 (witness): a store whose key lookup fails with HTTP 500 makes
processNotification reject with that fetch error, which the amended
classification covers. -/
theorem errors_escaping_processNotification_witness :
    (processNotification baseConfig authorisationNotif false none
      failingFetchClient).result = Except.error (HandlerError.fetchError 500) ∧
    ((∃ c, HandlerError.fetchError 500 = HandlerError.fetchError c ∧ c ≠ 404) ∨
     (∃ m, HandlerError.fetchError 500 = HandlerError.planError m) ∨
     (∃ id c, HandlerError.fetchError 500 = HandlerError.unexpectedUpdateError id c) ∨
     (∃ id v cv, HandlerError.fetchError 500 =
        HandlerError.concurrentModificationLimit id v cv)) :=
  ⟨by decide,
    errors_escaping_processNotification baseConfig authorisationNotif false none
      failingFetchClient (HandlerError.fetchError 500) (by decide)⟩

/-- C6 (counterexample): the initial aggregate fetch runs before the try
block, so a non-404 store failure escapes processNotification as an
exception, refuting that every resolution error is caught. -/
theorem fetch_error_propagates :
    (processNotification baseConfig authorisationNotif false none
      failingFetchClient).result = Except.error (HandlerError.fetchError 500) := by
  decide
